import Mathlib

/-!
# GitLab webhook notifier: correlation and reply engine

A shallow embedding of `gitlab.go`.  The handlers of the source run against the
`integram` framework (chat transport, correlation store, caches, settings store) and
against Go library functions (`fmt.Sprintf`, `url.QueryEscape`, the rich-text
markup).  The framework state the handlers read and write is the explicit record
`Context`; the pure library functions whose results are only ever embedded into
message texts are the fields of `Lib`, over which every general theorem quantifies.
A Go runtime panic (slice bound, index out of range, nil dereference) is the result
`none` of a handler.
-/

namespace Gitlab

/-! ## Notification settings -/

/-- Toggles of `ChatSettings.MR`. -/
structure MRSettings where
  Open : Bool
  Close : Bool
  Update : Bool
  Merge : Bool
deriving DecidableEq, Repr

/-- Toggles of `ChatSettings.Issues`. -/
structure IssuesSettings where
  Open : Bool
  Close : Bool
  Update : Bool
  Reopen : Bool
deriving DecidableEq, Repr

/-- Toggles of `ChatSettings.CI`. -/
structure CISettings where
  Success : Bool
  Fail : Bool
  Cancel : Bool
deriving DecidableEq, Repr

/-- The record `ChatSettings` of the source. -/
structure ChatSettings where
  MR : MRSettings
  Issues : IssuesSettings
  CI : CISettings
deriving DecidableEq, Repr

/-- The variable `defaultChatSettings`: positional literals in declaration order. -/
def defaultChatSettings : ChatSettings :=
  { Issues := ⟨true, true, true, true⟩
    MR := ⟨true, true, true, true⟩
    CI := ⟨false, true, true⟩ }

/-! ## Webhook payload -/

/-- Payload record `project`. -/
structure project where
  Path : String := ""
deriving DecidableEq, Repr

/-- Payload record `repository`. -/
structure repository where
  Name : String := ""
  URL : String := ""
  Description : String := ""
  Homepage : String := ""
deriving DecidableEq, Repr

/-- Payload record `author`. -/
structure author where
  Name : String := ""
  Email : String := ""
deriving DecidableEq, Repr

/-- Payload record `user` (the avatar URL is never read). -/
structure user where
  Name : String := ""
  Username : String := ""
deriving DecidableEq, Repr

/-- Payload record `commit` (the timestamp is never read). -/
structure commit where
  ID : String := ""
  Message : String := ""
  Author : author := {}
  URL : String := ""
  Added : List String := []
  Modified : List String := []
  Removed : List String := []
deriving DecidableEq, Repr

/-- Payload record `commitWithoutID`; the handlers read `SHA` and `URL` only. -/
structure commitWithoutID where
  SHA : String := ""
  Message : String := ""
  AuthorName : String := ""
  AuthorEmail : String := ""
  URL : String := ""
deriving DecidableEq, Repr

/-- Payload record `attributes`; Go `int` fields are integers, none is computed with. -/
structure attributes where
  ID : Int := 0
  Title : String := ""
  Note : String := ""
  NoteableType : String := ""
  ProjectID : Int := 0
  CreatedAt : String := ""
  CommitID : String := ""
  Description : String := ""
  MilestoneID : Int := 0
  State : String := ""
  Iid : Int := 0
  URL : String := ""
  Action : String := ""
deriving DecidableEq, Repr

/-- Payload record `mergeRequest`. -/
structure mergeRequest where
  ID : Int := 0
  State : String := ""
  Title : String := ""
  Description : String := ""
deriving DecidableEq, Repr

/-- Payload record `issue`. -/
structure issue where
  ID : Int := 0
  Title : String := ""
  State : String := ""
  Iid : Int := 0
deriving DecidableEq, Repr

/-- Payload record `snippet`. -/
structure snippet where
  ID : Int := 0
  Title : String := ""
  FileName : String := ""
deriving DecidableEq, Repr

/-- The parsed payload `webhook`.  Pointer fields are options (`none` is Go `nil`).
`BuildDuration` is a `float32` read from a JSON number, hence a rational; it is only
ever handed to `Sprintf`. -/
structure webhook where
  ObjectKind : String := ""
  SHA : String := ""
  BuildID : Int := 0
  BuildStatus : String := ""
  BuildName : String := ""
  BuildStage : String := ""
  BuildDuration : Rat := 0
  BuildAllowFailure : Bool := false
  Ref : String := ""
  Before : String := ""
  User : user := {}
  UserName : String := ""
  UserEmail : String := ""
  ObjectAttributes : Option attributes := none
  Repository : repository := {}
  ProjectID : Int := 0
  Project : project := {}
  Issue : Option issue := none
  Snippet : Option snippet := none
  After : String := ""
  Commits : List commit := []
  Commit : Option commitWithoutID := none
  MergeRequest : Option mergeRequest := none
deriving DecidableEq, Repr

/-! ## Framework boundary -/

/-- The functions registered as actions and jobs in `Config.Service`, as values that
can be stored in a reply action, an after-auth action or a job. -/
inductive Func where
  | hostedAppIDEntered
  | hostedAppSecretEntered
  | issueReplied
  | mrReplied
  | snippetReplied
  | commitReplied
  | commitToReplySelected
  | commitsReplied
  | settingsKeyboardPressed
  | sendIssueComment
  | sendSnippetComment
  | sendMRComment
  | sendCommitComment
  | cacheNickMap
deriving DecidableEq, Repr

/-- An argument stored with a bound function: a string, an `int`, a commit list, the
incoming message (by its text) or the context itself. -/
inductive Arg where
  | str (s : String)
  | int (i : Int)
  | commits (l : List commit)
  | message (text : String)
  | context
deriving DecidableEq, Repr

/-- A function bound together with its stored arguments. -/
structure Action where
  f : Func
  args : List Arg
deriving DecidableEq, Repr

/-- A stored message record (`integram.Message`): the transport's message id and the
event keys the message was tagged with. -/
structure Message where
  MsgID : Int := 0
  EventID : List String := []
deriving DecidableEq, Repr

/-- The message under construction (`integram.OutgoingMessage`), fields as set by the
builder methods the source calls. -/
structure OutgoingMessage where
  Text : String := ""
  EventID : List String := []
  ReplyToMsgID : Int := 0
  HTML : Bool := false
  WebPreview : Bool := true
  ForceReply : Bool := false
  ReplyAction : Option Action := none
deriving DecidableEq, Repr

/-- Models `OutgoingMessage.SetReplyAction`: binds the function and its arguments. -/
def OutgoingMessage.SetReplyAction (msg : OutgoingMessage) (f : Func) (args : List Arg) :
    OutgoingMessage :=
  { msg with ReplyAction := some { f := f, args := args } }

/-- An operand of `fmt.Sprintf`. -/
inductive FmtArg where
  | str (s : String)
  | int (i : Int)
  | f32 (q : Rat)
deriving DecidableEq, Repr

/-- Library functions outside the repository whose results only flow into texts:
the `integram.HTMLRichText` markup `m`, `fmt.Sprintf`, `url.QueryEscape`,
`strings.ToLower` and `strings.ToUpper`, `Context.WebPreview`, and the
normalisation `Context.SetServiceBaseURL` applies (old value, argument). -/
structure Lib where
  Bold : String → String
  URL : String → String → String
  Sprintf : String → List FmtArg → String
  QueryEscape : String → String
  ToLower : String → String
  ToUpper : String → String
  WebPreview : String → String → String → String → String → String
  BaseURL : String → String → String

/-- The incoming chat message `c.Message` with the reply action and event keys the
handlers attach to it. -/
structure IncomingMessage where
  Text : String := ""
  ReplyAction : Option Action := none
  EventID : List String := []
deriving DecidableEq, Repr

/-- The state behind `integram.Context` that the handlers read or write.  `Messages`
is the chat's correlation store, oldest record first; `Sent` and `Edits` log the
calls handed to the chat transport, oldest first. -/
structure Context where
  ServiceBaseURL : String := ""
  Messages : List Message := []
  ChatCache : List (String × String) := []
  ServiceCache : List (String × String) := []
  Settings : Option ChatSettings := none
  Sent : List OutgoingMessage := []
  Edits : List (String × String) := []
  Message : IncomingMessage := {}
  ProviderSetup : Bool := false
  OAuthValid : Bool := false
  UserMention : String := ""
  OauthInitURL : String := ""
  RedirectURL : String := ""
  AfterAuthAction : Option Action := none
  Jobs : List Action := []
deriving DecidableEq, Repr

/-- The function `chatSettings`: the defaults, overwritten by the saved record. -/
def chatSettings (c : Context) : ChatSettings :=
  c.Settings.getD defaultChatSettings

/-- Models `Context.SetServiceBaseURL`. -/
def SetServiceBaseURL (lib : Lib) (c : Context) (u : String) : Context :=
  { c with ServiceBaseURL := lib.BaseURL c.ServiceBaseURL u }

/-- Models `Context.FindMessageByEventID`: the oldest stored record tagged with the
key, if any. -/
def FindMessageByEventID (c : Context) (id : String) : Option Message :=
  c.Messages.find? (fun r => decide (id ∈ r.EventID))

/-- Models `OutgoingMessage.Send`: the message is handed to the transport, which assigns it
a positive message id, and its record enters the correlation store. -/
def Send (c : Context) (msg : OutgoingMessage) : Context :=
  { c with
    Sent := c.Sent ++ [msg]
    Messages := c.Messages ++ [{ MsgID := (c.Messages.length : Int) + 1, EventID := msg.EventID }] }

/-- Models `Chat.SetCache`: the newest value of a key shadows the older ones. -/
def SetCache (c : Context) (key val : String) : Context :=
  { c with ChatCache := (key, val) :: c.ChatCache }

/-- Models `Chat.Cache` into a string variable initialised to `""`. -/
def Cache (c : Context) (key : String) : String :=
  (c.ChatCache.lookup key).getD ""

/-- Models `Context.EditMessagesTextWithEventID`. -/
def EditMessagesTextWithEventID (c : Context) (eventID text : String) : Context :=
  { c with Edits := c.Edits ++ [(eventID, text)] }

/-! ## Go string and slice primitives -/

/-- Go `len(s)` of a string: its length in bytes. -/
def len (s : String) : Nat := s.utf8ByteSize

/-- Go `s[lo:hi]` on a string: panics unless `lo ≤ hi ≤ len(s)`.  The result is the
byte range (exact whenever both ends fall on character boundaries). -/
def slice (s : String) (lo hi : Nat) : Option String :=
  if lo ≤ hi ∧ hi ≤ len s then some (s.extract ⟨lo⟩ ⟨hi⟩) else none

/-- Go `s[lo:]` on a string. -/
def sliceFrom (s : String) (lo : Nat) : Option String :=
  slice s lo (len s)

/-- Go `l[i]` on a slice with a signed index: panics outside `0 ≤ i < len(l)`. -/
def index {α : Type} (l : List α) (i : Int) : Option α :=
  if 0 ≤ i then l.get? i.toNat else none

/-- The loop of `strings.Split` for a one-character separator: `cur` holds the
current field reversed. -/
def splitAux (sep : Char) : List Char → List Char → List String
  | cur, [] => [String.mk cur.reverse]
  | cur, ch :: rest =>
    if ch = sep then String.mk cur.reverse :: splitAux sep [] rest
    else splitAux sep (ch :: cur) rest

/-- Models `strings.Split(s, "/")`. -/
def Split (s : String) : List String :=
  splitAux '/' [] s.data

/-- Models `strings.TrimSuffix(s, "\n")`. -/
def TrimSuffixNL (s : String) : String :=
  match s.data.reverse with
  | '\n' :: rest => String.mk rest.reverse
  | _ => s

/-- Models `strconv.Itoa`. -/
def Itoa (i : Int) : String := toString i

/-! ## Helpers of the source -/

/-- The function `mention`: the chat handle cached for the name, else for the
e-mail, else the bold name. -/
def mention (lib : Lib) (c : Context) (name email : String) : String :=
  let userName := (c.ServiceCache.lookup ("nick_map_" ++ name)).getD ""
  let userName :=
    if userName = "" ∧ email ≠ "" then (c.ServiceCache.lookup ("nick_map_" ++ email)).getD userName
    else userName
  if userName = "" then lib.Bold name else "@" ++ userName

/-- The function `compareURL`. -/
def compareURL (home before after : String) : String :=
  home ++ "/compare/" ++ before ++ "..." ++ after

/-- The function `mrMessageID`. -/
def mrMessageID (c : Context) (mergeRequestID : Int) : Int :=
  match FindMessageByEventID c ("mr_" ++ Itoa mergeRequestID) with
  | some msg => msg.MsgID
  | none => 0

/-- The function `commitMessageID`. -/
def commitMessageID (c : Context) (commitID : String) : Int :=
  match FindMessageByEventID c ("commit_" ++ commitID) with
  | some msg => msg.MsgID
  | none => 0

/-- The function `issueMessageID`. -/
def issueMessageID (c : Context) (issueID : Int) : Int :=
  match FindMessageByEventID c ("issue_" ++ Itoa issueID) with
  | some msg => msg.MsgID
  | none => 0

/-- The function `snippetMessageID`. -/
def snippetMessageID (c : Context) (snippetID : Int) : Int :=
  match FindMessageByEventID c ("snippet_" ++ Itoa snippetID) with
  | some msg => msg.MsgID
  | none => 0

/-- The function `noteUniqueID`. -/
def noteUniqueID (projectID : Int) (noteID : String) : String :=
  "note_" ++ Itoa projectID ++ "_" ++ noteID

/-! ## The webhook handler -/

/-- Body of the first loop of the `push` case: the flag is raised by a commit whose
author e-mail and author name both differ from the pusher's. -/
def otherPersonStep (wh : webhook) (flag : Bool) (cm : commit) : Bool :=
  if cm.Author.Email ≠ wh.UserEmail ∧ cm.Author.Name ≠ wh.UserName then true else flag

/-- The variable `anyOherPersonCommits` after the first loop. -/
def anyOherPersonCommits (wh : webhook) : Bool :=
  wh.Commits.foldl (otherPersonStep wh) false

/-- Variables updated by the second loop of the `push` case. -/
structure PushAcc where
  text : String := ""
  added : Nat := 0
  removed : Nat := 0
  modified : Nat := 0
deriving DecidableEq, Repr

/-- Body of the second loop of the `push` case. -/
def pushStep (lib : Lib) (c : Context) (flag : Bool) (acc : PushAcc) (cm : commit) : PushAcc :=
  let message := TrimSuffixNL cm.Message
  let text :=
    if flag then acc.text ++ (mention lib c cm.Author.Name cm.Author.Email ++ ": ") else acc.text
  { text := text ++ (lib.URL message cm.URL ++ "\n")
    added := acc.added + cm.Added.length
    removed := acc.removed + cm.Removed.length
    modified := acc.modified + cm.Modified.length }

/-- The string `f` of the `push` case. -/
def filesSummary (modified added removed : Nat) : String :=
  let f := ""
  let f := if modified > 0 then f ++ (Itoa modified ++ " files modified") else f
  let f :=
    if added > 0 then
      if f = "" then f ++ (Itoa added ++ " files added") else f ++ (" " ++ Itoa added ++ " added")
    else f
  let f :=
    if removed > 0 then
      if f = "" then f ++ (Itoa removed ++ " files removed")
      else f ++ (" " ++ Itoa removed ++ " removed")
    else f
  f

/-- Case `"push"` of `webhookHandler`.  `Sprintf` calls with a constant format of
`%s` and `%d` verbs are written as the concatenation they denote. -/
def webhookHandlerPush (lib : Lib) (c : Context) (msg : OutgoingMessage) (wh : webhook) :
    Option Context := do
  let s := Split wh.Ref
  let branch ← index s ((s.length : Int) - 1)
  let flag := anyOherPersonCommits wh
  let acc := wh.Commits.foldl (pushStep lib c flag) {}
  let text := acc.text
  let f := filesSummary acc.modified acc.added acc.removed
  let wp ←
    if wh.Commits.length > 1 then do
      let before ← slice wh.Before 0 10
      let after ← slice wh.After 0 10
      pure (lib.WebPreview (Itoa wh.Commits.length ++ " commits")
        ("@" ++ before ++ " ... @" ++ after) f
        (compareURL wh.Repository.Homepage wh.Before wh.After) "")
    else if wh.Commits.length = 1 then do
      let after ← slice wh.After 0 10
      let first ← index wh.Commits 0
      pure (lib.WebPreview "Commit" ("@" ++ after) f first.URL "")
    else pure ""
  if wh.Commits.length > 0 then do
    let msg ←
      if wh.Commits.length = 1 then do
        let first ← index wh.Commits 0
        pure (msg.SetReplyAction .commitReplied
          [.str c.ServiceBaseURL, .int wh.ProjectID, .str first.ID])
      else
        pure (msg.SetReplyAction .commitsReplied
          [.str c.ServiceBaseURL, .int wh.ProjectID, .commits wh.Commits])
    let destStr := if wh.Project.Path = "" then wh.Repository.Name else wh.Project.Path
    let text :=
      mention lib c wh.UserName wh.UserEmail ++ " " ++ lib.URL "pushed" wp ++ " to " ++
        lib.URL (destStr ++ "/" ++ branch)
          (wh.Repository.Homepage ++ "/tree/" ++ lib.QueryEscape branch) ++ "\n" ++ text
    let last ← index wh.Commits ((wh.Commits.length : Int) - 1)
    let c := SetCache c ("commit_" ++ last.ID) text
    pure (Send c { msg with EventID := msg.EventID ++ ["commit_" ++ last.ID], Text := text, HTML := true })
  else if wh.After ≠ "0000000000000000000000000000000000000000" ∧ wh.After ≠ "" then
    pure (Send c { msg with
      Text := mention lib c wh.UserName wh.UserEmail ++ " created branch " ++
        lib.URL (wh.Repository.Name ++ "/" ++ branch)
          (wh.Repository.Homepage ++ "/tree/" ++ lib.QueryEscape branch) ++ "\n" ++ text
      HTML := true })
  else
    pure (Send c { msg with
      Text := mention lib c wh.UserName wh.UserEmail ++ " deleted branch " ++
        lib.Bold (wh.Repository.Name ++ "/" ++ branch) ++ "\n" ++ text
      HTML := true })

/-- Case `"tag_push"` of `webhookHandler`. -/
def webhookHandlerTagPush (lib : Lib) (c : Context) (msg : OutgoingMessage) (wh : webhook) :
    Option Context := do
  let s := Split wh.Ref
  let itemType ← index s ((s.length : Int) - 2)
  let itemType :=
    if itemType = "tags" then "tag" else if itemType = "heads" then "branch" else itemType
  let destStr :=
    if wh.Project.Path = "" then wh.UserName ++ " / " ++ wh.Repository.Name else wh.Project.Path
  let last ← index s ((s.length : Int) - 1)
  pure (Send c { msg with
    Text := mention lib c wh.UserName wh.UserEmail ++ " pushed new " ++
      lib.URL (itemType ++ " " ++ last) (wh.Repository.Homepage ++ "/tree/" ++ last) ++ " at " ++
      lib.URL destStr wh.Repository.Homepage
    HTML := true
    WebPreview := false })

/-- Case `"issue"` of `webhookHandler`. -/
def webhookHandlerIssue (lib : Lib) (c : Context) (msg : OutgoingMessage) (wh : webhook) :
    Option Context := do
  let oa ← wh.ObjectAttributes
  let cs := chatSettings c
  if cs.Issues.Open = false ∧ oa.Action = "open" then pure c
  else if cs.Issues.Update = false ∧ oa.Action = "update" then pure c
  else if cs.Issues.Close = false ∧ oa.Action = "close" then pure c
  else if cs.Issues.Reopen = false ∧ oa.Action = "reopen" then pure c
  else
    let msg := msg.SetReplyAction .issueReplied
      [.str c.ServiceBaseURL, .int oa.ProjectID, .int oa.Iid]
    if oa.Action = "open" then
      pure (Send c { msg with
        EventID := msg.EventID ++ ["issue_" ++ Itoa oa.ID]
        Text := mention lib c wh.User.Username wh.UserEmail ++ " " ++ oa.State ++ " " ++
          lib.URL "issue" oa.URL ++ " at " ++
          lib.URL (wh.User.Username ++ " / " ++ wh.Repository.Name) wh.Repository.Homepage ++
          ":\n" ++ lib.Bold oa.Title ++ "\n" ++ oa.Description
        HTML := true
        WebPreview := false })
    else
      let action :=
        if oa.Action = "reopen" then "reopened" else if oa.Action = "close" then "closed"
        else "updated"
      let id := issueMessageID c oa.ID
      if id > 0 then
        pure (Send c { msg with
          Text := lib.Bold action ++ " by " ++ mention lib c wh.User.Username ""
          HTML := true
          WebPreview := false
          ReplyToMsgID := id })
      else
        let wp := lib.WebPreview "Issue" oa.Title (wh.User.Username ++ " / " ++ wh.Repository.Name)
          oa.URL ""
        pure (Send c { msg with
          Text := lib.URL action wp ++ " by " ++ mention lib c wh.User.Username ""
          HTML := true })

/-- The dedup key of the `note` case: the note id, replaced by the creation time when
the note text is `"Commit"`. -/
def noteKey (oa : attributes) : String :=
  let noteID := Itoa oa.ID
  let noteID := if oa.Note = "Commit" then oa.CreatedAt else noteID
  noteUniqueID oa.ProjectID noteID

/-- The `switch wh.ObjectAttributes.NoteableType` of the `note` case: the values of
`noteType`, `originMsg` and `wp` after it.  `originMsg` starts as the non-nil empty
record `&integram.Message{}` and is only reassigned inside a case. -/
def noteOrigin (lib : Lib) (c : Context) (wh : webhook) (oa : attributes) :
    Option (String × Option Message × String) :=
  if oa.NoteableType = "Commit" then
    match FindMessageByEventID c ("commit_" ++ oa.CommitID) with
    | some m => pure ("commit", some m, "")
    | none => do
      let id10 ← slice oa.CommitID 0 10
      pure ("commit", none, lib.WebPreview "Commit" ("@" ++ id10)
        (wh.User.Username ++ " / " ++ wh.Repository.Name) oa.URL "")
  else if oa.NoteableType = "MergeRequest" then do
    let mr ← wh.MergeRequest
    match FindMessageByEventID c ("mr_" ++ Itoa mr.ID) with
    | some m => pure ("merge request", some m, "")
    | none =>
      pure ("merge request", none, lib.WebPreview "Merge Request" mr.Title
        (wh.User.Username ++ " / " ++ wh.Repository.Name) oa.URL "")
  else if oa.NoteableType = "Issue" then do
    let iss ← wh.Issue
    match FindMessageByEventID c ("issue_" ++ Itoa iss.ID) with
    | some m => pure ("issue", some m, "")
    | none =>
      pure ("issue", none, lib.WebPreview "Issue" iss.Title
        (wh.User.Username ++ " / " ++ wh.Repository.Name) oa.URL "")
  else if oa.NoteableType = "Snippet" then do
    let sn ← wh.Snippet
    match FindMessageByEventID c ("snippet_" ++ Itoa sn.ID) with
    | some m => pure ("snippet", some m, "")
    | none =>
      pure ("snippet", none, lib.WebPreview "Snippet" sn.Title
        (wh.User.Username ++ " / " ++ wh.Repository.Name) oa.URL "")
  else pure ("", some {}, "")

/-- Case `"note"` of `webhookHandler`. -/
def webhookHandlerNote (lib : Lib) (c : Context) (msg : OutgoingMessage) (wh : webhook) :
    Option Context := do
  let oa ← wh.ObjectAttributes
  match FindMessageByEventID c (noteKey oa) with
  | some _ => pure c
  | none =>
    let (noteType, originMsg, wp) ← noteOrigin lib c wh oa
    match originMsg with
    | none =>
      let wp := if wp = "" then oa.URL else wp
      let noteType := if noteType = "" then lib.ToLower oa.NoteableType else noteType
      pure (Send c { msg with
        Text := mention lib c wh.User.Username "" ++ " commented on " ++ lib.URL noteType wp ++
          ": " ++ oa.Note
        HTML := true })
    | some origin =>
      pure (Send c { msg with
        Text := mention lib c wh.User.Username "" ++ ": " ++ oa.Note
        WebPreview := false
        HTML := true
        ReplyToMsgID := origin.MsgID })

/-- Case `"merge_request"` of `webhookHandler`. -/
def webhookHandlerMergeRequest (lib : Lib) (c : Context) (msg : OutgoingMessage)
    (wh : webhook) : Option Context := do
  let oa ← wh.ObjectAttributes
  let cs := chatSettings c
  if cs.MR.Open = false ∧ (oa.Action = "open" ∨ oa.Action = "reopen") then pure c
  else if cs.MR.Close = false ∧ oa.Action = "close" then pure c
  else if cs.MR.Update = false ∧ oa.Action = "update" then pure c
  else if cs.MR.Merge = false ∧ oa.Action = "merge" then pure c
  else if oa.Action = "open" then
    let description := if oa.Description ≠ "" then "\n" ++ oa.Description else oa.Description
    pure (Send c { msg with
      EventID := msg.EventID ++ ["mr_" ++ Itoa oa.ID]
      Text := mention lib c wh.User.Username wh.UserEmail ++ " " ++ oa.State ++ " " ++
        lib.URL "merge request" oa.URL ++ " at " ++
        lib.URL (wh.UserName ++ " / " ++ wh.Repository.Name) wh.Repository.Homepage ++
        ":\n" ++ lib.Bold oa.Title ++ description
      HTML := true
      WebPreview := false })
  else
    match FindMessageByEventID c ("mr_" ++ Itoa oa.ID) with
    | some originMsg =>
      pure (Send c { msg with
        Text := lib.URL "merge request" oa.URL ++ " " ++ oa.State ++ " by " ++
          mention lib c wh.User.Username wh.UserEmail
        HTML := true
        ReplyToMsgID := originMsg.MsgID
        WebPreview := false })
    | none =>
      let wp := lib.WebPreview "Merge Request" oa.Title oa.Description oa.URL ""
      pure (Send c { msg with
        Text := lib.URL "Merge request" wp ++ " " ++ oa.State ++ " by " ++
          mention lib c wh.User.Username wh.UserEmail
        HTML := true })

/-- The status line `text` of the `build` case.  The formats are assembled from
payload text and take the `float32` duration, so they go through `Lib.Sprintf`. -/
def buildText (lib : Lib) (c : Context) (wh : webhook) (commit build : String) : String :=
  if wh.BuildStatus = "pending" then "⏳ CI: " ++ commit ++ build ++ " is pending"
  else if wh.BuildStatus = "running" then "⚙ CI: " ++ commit ++ build ++ " is running"
  else if wh.BuildStatus = "success" then
    lib.Sprintf ("✅ CI: " ++ commit ++ build ++ " succeeded after %.1f sec") [.f32 wh.BuildDuration]
  else if wh.BuildStatus = "failed" then
    let mark := "‼️"
    let suffix := ""
    let (suffix, mark) :=
      if wh.BuildAllowFailure then (" (allowed to fail)", "❕") else (suffix, mark)
    lib.Sprintf ("%s CI: " ++ commit ++ build ++ " failed after %.1f sec%s")
      [.str mark, .f32 wh.BuildDuration, .str suffix]
  else if wh.BuildStatus = "canceled" then
    lib.Sprintf ("🔚 CI: " ++ commit ++ build ++ " canceled by %s after %.1f sec")
      [.str (mention lib c wh.User.Name ""), .f32 wh.BuildDuration]
  else ""

/-- The condition under which the `build` case sends the status line as a message. -/
def buildNotify (cs : ChatSettings) (wh : webhook) : Bool :=
  (cs.CI.Success && decide (wh.BuildStatus = "success")) ||
    (cs.CI.Cancel && decide (wh.BuildStatus = "canceled")) ||
    (cs.CI.Fail && decide (wh.BuildStatus = "failed") && !wh.BuildAllowFailure)

/-- First part of the `build` case: the values of `commit`, `build` and `msg` once the
lookup result `commitMsg` has been handled. -/
def buildParts (lib : Lib) (wh : webhook) (commitMsg : Option Message) (msg : OutgoingMessage) :
    Option (String × String × OutgoingMessage) := do
  let head ← slice wh.BuildStage 0 1
  let tail ← sliceFrom wh.BuildStage 1
  let build := lib.URL (lib.ToUpper head ++ tail)
    (wh.Repository.Homepage ++ "/builds/" ++ Itoa wh.BuildID)
  match commitMsg with
  | none => do
    let hpURL := Split wh.Repository.Homepage
    let username ← index hpURL ((hpURL.length : Int) - 2)
    let sha10 ← slice wh.SHA 0 10
    pure (lib.URL "Commit" (lib.WebPreview "Commit" ("@" ++ sha10)
        (username ++ " / " ++ wh.Repository.Name)
        (wh.Repository.URL ++ "/commit/" ++ wh.SHA) "") ++ " ",
      lib.URL wh.BuildStage (wh.Repository.Homepage ++ "/builds/" ++ Itoa wh.BuildID),
      msg)
  | some m => pure ("", build, { msg with ReplyToMsgID := m.MsgID, WebPreview := false })

/-- The block `if commitMsg != nil` of the `build` case: the cached text of the push
message is read under the sha of the payload's commit object and, when it is not
empty, the status line is appended to it by an edit. -/
def buildEdit (c : Context) (wh : webhook) (commitMsg : Option Message) (text : String) :
    Option Context :=
  match commitMsg with
  | some m => do
    let cm ← wh.Commit
    let commitMsgText := Cache c ("commit_" ++ cm.SHA)
    if commitMsgText ≠ "" then do
      let eventID ← index m.EventID 0
      pure (EditMessagesTextWithEventID c eventID (commitMsgText ++ "\n" ++ text))
    else pure c
  | none => pure c

/-- Case `"build"` of `webhookHandler` (the one-second sleep is not modelled). -/
def webhookHandlerBuild (lib : Lib) (c : Context) (msg : OutgoingMessage) (wh : webhook) :
    Option Context := do
  let commitMsg := FindMessageByEventID c ("commit_" ++ wh.SHA)
  let (commit, build, msg) ← buildParts lib wh commitMsg msg
  let build :=
    if lib.ToLower wh.BuildStage ≠ lib.ToLower wh.BuildName then build ++ (" #" ++ wh.BuildName)
    else build
  let text := buildText lib c wh commit build
  let c ← buildEdit c wh commitMsg text
  let cs := chatSettings c
  if buildNotify cs wh then pure (Send c { msg with Text := text, HTML := true })
  else pure c

/-- The service base URL is taken from the payload before the dispatch. -/
def setBaseURL (lib : Lib) (c : Context) (wh : webhook) : Context :=
  if wh.Repository.Homepage ≠ "" then SetServiceBaseURL lib c wh.Repository.Homepage
  else
    match wh.ObjectAttributes with
    | some oa =>
      if oa.URL = "" then SetServiceBaseURL lib c oa.URL
      else
        match wh.Commit with
        | some cm => SetServiceBaseURL lib c cm.URL
        | none => c
    | none => c

/-- The function `webhookHandler` on a parsed payload: the context after the call,
or `none` when the call panics. -/
def webhookHandler (lib : Lib) (c : Context) (wh : webhook) : Option Context :=
  let msg : OutgoingMessage := {}
  let c := setBaseURL lib c wh
  if wh.ObjectKind = "push" then webhookHandlerPush lib c msg wh
  else if wh.ObjectKind = "tag_push" then webhookHandlerTagPush lib c msg wh
  else if wh.ObjectKind = "issue" then webhookHandlerIssue lib c msg wh
  else if wh.ObjectKind = "note" then webhookHandlerNote lib c msg wh
  else if wh.ObjectKind = "merge_request" then webhookHandlerMergeRequest lib c msg wh
  else if wh.ObjectKind = "build" then webhookHandlerBuild lib c msg wh
  else some c

/-! ## The reply handlers -/

/-- Models `User.SetAfterAuthAction`: the action resumed once the user has authorized. -/
def SetAfterAuthAction (c : Context) (f : Func) (args : List Arg) : Context :=
  { c with AfterAuthAction := some { f := f, args := args } }

/-- Models `Service.DoJob`: the job is appended to the queue. -/
def DoJob (c : Context) (f : Func) (args : List Arg) : Context :=
  { c with Jobs := c.Jobs ++ [{ f := f, args := args }] }

/-- Models `c.Message.SetReplyAction`: binds the reply action of the incoming message. -/
def SetMessageReplyAction (c : Context) (f : Func) (args : List Arg) : Context :=
  { c with Message := { c.Message with ReplyAction := some { f := f, args := args } } }

/-- The function `mustBeAuthed`: whether the user may post, and the context after
the prompt it sends otherwise (the prompts go to the user's private chat; they are
logged with the other sent messages). -/
def mustBeAuthed (c : Context) : Bool × Context :=
  if c.ProviderSetup = false then
    let text :=
      "To be able to use interactive replies in Telegram, first you need to add oauth application on your hosted GitLab instance (admin priveleges required): " ++
        (c.ServiceBaseURL ++ "/admin/applications/new") ++
        "\nAdd application with any name(f.e. Telegram) and specify this *Redirect URI*: \n" ++
        c.RedirectURL ++
        "\n\nAfter you press *Submit* you will receive app info. First, send me the *Application ID*"
    let msg : OutgoingMessage := { Text := text, HTML := true, ForceReply := true, WebPreview := false }
    (false, Send c (msg.SetReplyAction .hostedAppIDEntered [.str c.ServiceBaseURL]))
  else if c.OAuthValid = false then
    let text := "You need to authorize me to use interactive replies: " ++ c.OauthInitURL
    (false, Send c { Text := text, WebPreview := false })
  else (true, c)

/-- The function `commitReplied`. -/
def commitReplied (lib : Lib) (c : Context) (baseURL : String) (projectID : Int)
    (commitID : String) : Context :=
  let c := SetMessageReplyAction c .commitReplied [.str baseURL, .int projectID, .str commitID]
  let c := SetServiceBaseURL lib c baseURL
  let (authorized, c) := mustBeAuthed c
  if authorized = false then
    SetAfterAuthAction c .sendCommitComment
      [.int projectID, .str commitID, .message c.Message.Text]
  else
    DoJob c .sendCommitComment
      [.context, .int projectID, .str commitID, .message c.Message.Text]

/-- The function `issueReplied`. -/
def issueReplied (lib : Lib) (c : Context) (baseURL : String) (projectID issueID : Int) :
    Context :=
  let c := SetServiceBaseURL lib c baseURL
  let (authorized, c) := mustBeAuthed c
  let c :=
    if authorized = false then
      SetAfterAuthAction c .issueReplied [.str baseURL, .int projectID, .int issueID]
    else
      DoJob c .sendIssueComment [.context, .int projectID, .int issueID, .str c.Message.Text]
  SetMessageReplyAction c .issueReplied [.str baseURL, .int projectID, .int issueID]

/-- The function `mrReplied`. -/
def mrReplied (lib : Lib) (c : Context) (baseURL : String) (projectID mergeRequestID : Int) :
    Context :=
  let c := SetServiceBaseURL lib c baseURL
  let (authorized, c) := mustBeAuthed c
  let c :=
    if authorized = false then
      SetAfterAuthAction c .mrReplied [.str baseURL, .int projectID, .int mergeRequestID]
    else
      DoJob c .sendMRComment
        [.context, .str baseURL, .int projectID, .int mergeRequestID, .str c.Message.Text]
  SetMessageReplyAction c .mrReplied [.str baseURL, .int projectID, .int mergeRequestID]

/-- The function `snippetReplied`. -/
def snippetReplied (lib : Lib) (c : Context) (baseURL : String) (projectID snippetID : Int) :
    Context :=
  let c := SetServiceBaseURL lib c baseURL
  let (authorized, c) := mustBeAuthed c
  let c :=
    if authorized = false then
      SetAfterAuthAction c .sendSnippetComment
        [.str baseURL, .int projectID, .int snippetID, .str c.Message.Text]
    else
      DoJob c .sendSnippetComment
        [.context, .str baseURL, .int projectID, .int snippetID, .str c.Message.Text]
  SetMessageReplyAction c .mrReplied [.str baseURL, .int projectID, .int snippetID]

/-! ## The settings keyboard -/

/-- An inline button: callback data, caption and state. -/
structure InlineButton where
  Data : String
  Text : String
  State : Int := 0
deriving DecidableEq, Repr

/-- The keyboard `btns.Markup(1, state)`: the buttons and the keyboard state. -/
structure InlineKeyboard where
  Buttons : List InlineButton
  State : String
deriving DecidableEq, Repr

/-- The callback `c.Callback` of a pressed button: its data, its state, and the state
of the keyboard it belongs to (`c.Callback.Message.InlineKeyboardMarkup.State`). -/
structure Callback where
  Data : String
  State : Int
  MarkupState : String
deriving DecidableEq, Repr

/-- The function `boolToMark`. -/
def boolToMark (b : Bool) : String :=
  if b then "☑️ " else ""

/-- The function `boolToState`. -/
def boolToState (b : Bool) : Int :=
  if b then 1 else 0

/-- The function `stateToBool`. -/
def stateToBool (state : Int) : Bool :=
  if state = 1 then true else false

/-- Models `Chat.SaveSettings`. -/
def SaveSettings (c : Context) (cs : ChatSettings) : Context :=
  { c with Settings := some cs }

/-- The function `settingsKeyboardPressed`: the context after the call and the
keyboard handed to `EditPressedInlineKeyboard`. -/
def settingsKeyboardPressed (c : Context) (cb : Callback) : Context × InlineKeyboard :=
  let cs := chatSettings c
  let state := cb.MarkupState
  let state := if state = "categories" then cb.Data else state
  if cb.Data = "back" then
    (c, { Buttons := [⟨"ci", "CI", 0⟩, ⟨"mr", "Merge requests", 0⟩, ⟨"issues", "Issues", 0⟩]
          State := "categories" })
  else if state = "mr" then
    let cs :=
      if cb.Data = "open" then { cs with MR := { cs.MR with Open := !stateToBool cb.State } }
      else if cb.Data = "close" then
        { cs with MR := { cs.MR with Close := !stateToBool cb.State } }
      else if cb.Data = "update" then
        { cs with MR := { cs.MR with Update := !stateToBool cb.State } }
      else if cb.Data = "merge" then
        { cs with MR := { cs.MR with Merge := !stateToBool cb.State } }
      else cs
    (SaveSettings c cs,
      { Buttons :=
          [⟨"back", "← Back", 0⟩,
           ⟨"open", boolToMark cs.MR.Open ++ "Open", boolToState cs.MR.Open⟩,
           ⟨"update", boolToMark cs.MR.Update ++ "Update", boolToState cs.MR.Update⟩,
           ⟨"merge", boolToMark cs.MR.Merge ++ "Merge", boolToState cs.MR.Merge⟩,
           ⟨"close", boolToMark cs.MR.Close ++ "Close", boolToState cs.MR.Close⟩]
        State := state })
  else if state = "issues" then
    let cs :=
      if cb.Data = "open" then
        { cs with Issues := { cs.Issues with Open := !stateToBool cb.State } }
      else if cb.Data = "close" then
        { cs with Issues := { cs.Issues with Close := !stateToBool cb.State } }
      else if cb.Data = "update" then
        { cs with Issues := { cs.Issues with Update := !stateToBool cb.State } }
      else if cb.Data = "reopen" then
        { cs with Issues := { cs.Issues with Reopen := !stateToBool cb.State } }
      else cs
    (SaveSettings c cs,
      { Buttons :=
          [⟨"back", "← Back", 0⟩,
           ⟨"open", boolToMark cs.Issues.Open ++ "Open", boolToState cs.Issues.Open⟩,
           ⟨"update", boolToMark cs.Issues.Update ++ "Update", boolToState cs.Issues.Update⟩,
           ⟨"close", boolToMark cs.Issues.Close ++ "Close", boolToState cs.Issues.Close⟩,
           ⟨"reopen", boolToMark cs.Issues.Reopen ++ "Reopen", boolToState cs.Issues.Reopen⟩]
        State := state })
  else if state = "ci" then
    let cs :=
      if cb.Data = "success" then
        { cs with CI := { cs.CI with Success := !stateToBool cb.State } }
      else if cb.Data = "fail" then { cs with CI := { cs.CI with Fail := !stateToBool cb.State } }
      else if cb.Data = "cancel" then
        { cs with CI := { cs.CI with Cancel := !stateToBool cb.State } }
      else cs
    (SaveSettings c cs,
      { Buttons :=
          [⟨"back", "← Back", 0⟩,
           ⟨"success", boolToMark cs.CI.Success ++ "Success", boolToState cs.CI.Success⟩,
           ⟨"fail", boolToMark cs.CI.Fail ++ "Fail", boolToState cs.CI.Fail⟩,
           ⟨"cancel", boolToMark cs.CI.Cancel ++ "Cancel", boolToState cs.CI.Cancel⟩]
        State := state })
  else (c, { Buttons := [], State := state })

/-- The callback the transport delivers when the button with data `data` of the
keyboard `kb` is pressed: the data and state of that button and the keyboard state. -/
def press (kb : InlineKeyboard) (data : String) : Option Callback :=
  (kb.Buttons.find? (fun b => decide (b.Data = data))).map
    (fun b => { Data := b.Data, State := b.State, MarkupState := kb.State })

/-- The eleven toggles of the settings keyboard. -/
inductive Toggle where
  | mrOpen | mrClose | mrUpdate | mrMerge
  | issuesOpen | issuesClose | issuesUpdate | issuesReopen
  | ciSuccess | ciFail | ciCancel
deriving DecidableEq, Repr

/-- The category button that opens the keyboard of a toggle. -/
def Toggle.category : Toggle → String
  | .mrOpen | .mrClose | .mrUpdate | .mrMerge => "mr"
  | .issuesOpen | .issuesClose | .issuesUpdate | .issuesReopen => "issues"
  | .ciSuccess | .ciFail | .ciCancel => "ci"

/-- The callback data of the button of a toggle. -/
def Toggle.data : Toggle → String
  | .mrOpen | .issuesOpen => "open"
  | .mrClose | .issuesClose => "close"
  | .mrUpdate | .issuesUpdate => "update"
  | .mrMerge => "merge"
  | .issuesReopen => "reopen"
  | .ciSuccess => "success"
  | .ciFail => "fail"
  | .ciCancel => "cancel"

/-- The boolean of a settings record a toggle stands for. -/
def Toggle.get (s : ChatSettings) : Toggle → Bool
  | .mrOpen => s.MR.Open
  | .mrClose => s.MR.Close
  | .mrUpdate => s.MR.Update
  | .mrMerge => s.MR.Merge
  | .issuesOpen => s.Issues.Open
  | .issuesClose => s.Issues.Close
  | .issuesUpdate => s.Issues.Update
  | .issuesReopen => s.Issues.Reopen
  | .ciSuccess => s.CI.Success
  | .ciFail => s.CI.Fail
  | .ciCancel => s.CI.Cancel

/-- The settings record with the boolean of one toggle negated. -/
def Toggle.flip (s : ChatSettings) : Toggle → ChatSettings
  | .mrOpen => { s with MR := { s.MR with Open := !s.MR.Open } }
  | .mrClose => { s with MR := { s.MR with Close := !s.MR.Close } }
  | .mrUpdate => { s with MR := { s.MR with Update := !s.MR.Update } }
  | .mrMerge => { s with MR := { s.MR with Merge := !s.MR.Merge } }
  | .issuesOpen => { s with Issues := { s.Issues with Open := !s.Issues.Open } }
  | .issuesClose => { s with Issues := { s.Issues with Close := !s.Issues.Close } }
  | .issuesUpdate => { s with Issues := { s.Issues with Update := !s.Issues.Update } }
  | .issuesReopen => { s with Issues := { s.Issues with Reopen := !s.Issues.Reopen } }
  | .ciSuccess => { s with CI := { s.CI with Success := !s.CI.Success } }
  | .ciFail => { s with CI := { s.CI with Fail := !s.CI.Fail } }
  | .ciCancel => { s with CI := { s.CI with Cancel := !s.CI.Cancel } }

/-! ## Descriptions of the push message

Closed forms of what the `push` case computes; the theorems below relate them to the
handler. -/

/-- The branch name of a push: the last field of the ref. -/
def pushBranch (wh : webhook) : String :=
  (Split wh.Ref).getLastD ""

/-- One commit line of a push message: the mention prefix when `flag` is set, the
linked commit message, a line break. -/
def commitLine (lib : Lib) (c : Context) (flag : Bool) (cm : commit) : String :=
  (if flag then mention lib c cm.Author.Name cm.Author.Email ++ ": " else "") ++
    (lib.URL (TrimSuffixNL cm.Message) cm.URL ++ "\n")

/-- Concatenation of a list of lines, first line first. -/
def concatLines : List String → String
  | [] => ""
  | x :: xs => x ++ concatLines xs

/-- The commit lines of a push message: the text built by the second loop. -/
def pushLines (lib : Lib) (c : Context) (wh : webhook) : String :=
  (wh.Commits.foldl (pushStep lib c (anyOherPersonCommits wh)) {}).text

/-- The first line of the message of a push with commits, for the preview link `wp`. -/
def pushHeader (lib : Lib) (c : Context) (wh : webhook) (wp : String) : String :=
  mention lib c wh.UserName wh.UserEmail ++ " " ++ lib.URL "pushed" wp ++ " to " ++
    lib.URL ((if wh.Project.Path = "" then wh.Repository.Name else wh.Project.Path) ++ "/" ++
        pushBranch wh)
      (wh.Repository.Homepage ++ "/tree/" ++ lib.QueryEscape (pushBranch wh))

/-- The text of the message of a push with commits. -/
def pushText (lib : Lib) (c : Context) (wh : webhook) (wp : String) : String :=
  pushHeader lib c wh wp ++ "\n" ++ pushLines lib c wh

/-- The reply action a push with commits binds. -/
def pushAction (c : Context) (wh : webhook) : Action :=
  match wh.Commits with
  | [cm] => ⟨.commitReplied, [.str c.ServiceBaseURL, .int wh.ProjectID, .str cm.ID]⟩
  | _ => ⟨.commitsReplied, [.str c.ServiceBaseURL, .int wh.ProjectID, .commits wh.Commits]⟩

/-- The preview link of a push with commits, when the hash slices are defined. -/
def pushPreview (lib : Lib) (c : Context) (wh : webhook) : String :=
  let acc := wh.Commits.foldl (pushStep lib c (anyOherPersonCommits wh)) {}
  let f := filesSummary acc.modified acc.added acc.removed
  if wh.Commits.length > 1 then
    lib.WebPreview (Itoa wh.Commits.length ++ " commits")
      ("@" ++ wh.Before.extract ⟨0⟩ ⟨10⟩ ++ " ... @" ++ wh.After.extract ⟨0⟩ ⟨10⟩) f
      (compareURL wh.Repository.Homepage wh.Before wh.After) ""
  else
    lib.WebPreview "Commit" ("@" ++ wh.After.extract ⟨0⟩ ⟨10⟩) f
      ((wh.Commits.head?.map (fun cm => cm.URL)).getD "") ""

/-- The message a push with commits sends, for the last commit id `last`. -/
def pushMessage (lib : Lib) (c : Context) (wh : webhook) (last : String) : OutgoingMessage :=
  { Text := pushText lib c wh (pushPreview lib c wh)
    EventID := ["commit_" ++ last]
    HTML := true
    ReplyAction := some (pushAction c wh) }

/-! ## Descriptions of the build status line -/

/-- The link `build` of a build event whose push message is found, before the job
name is appended. -/
def buildLink (lib : Lib) (wh : webhook) : String :=
  lib.URL (lib.ToUpper (wh.BuildStage.extract ⟨0⟩ ⟨1⟩) ++
      wh.BuildStage.extract ⟨1⟩ ⟨len wh.BuildStage⟩)
    (wh.Repository.Homepage ++ "/builds/" ++ Itoa wh.BuildID)

/-- The link `build` with the job name appended when it differs from the stage. -/
def buildNamed (lib : Lib) (wh : webhook) (build : String) : String :=
  if lib.ToLower wh.BuildStage ≠ lib.ToLower wh.BuildName then build ++ (" #" ++ wh.BuildName)
  else build

/-- The status line of a build event whose push message is found. -/
def threadedBuildLine (lib : Lib) (c : Context) (wh : webhook) : String :=
  buildText lib c wh "" (buildNamed lib wh (buildLink lib wh))

/-- The new message of a build event whose push message `m` is found. -/
def threadedBuildMessage (lib : Lib) (c : Context) (wh : webhook) (m : Message) :
    OutgoingMessage :=
  { Text := threadedBuildLine lib c wh
    HTML := true
    ReplyToMsgID := m.MsgID
    WebPreview := false }

/-- The slices, the index and the dereference the `build` case evaluates are defined:
the stage is not empty and, when no push message is found, the homepage has a `/`
and the sha has 10 bytes, and when one is found, the payload has a commit object. -/
def buildDefined (c : Context) (wh : webhook) : Prop :=
  1 ≤ len wh.BuildStage ∧
    if (FindMessageByEventID c ("commit_" ++ wh.SHA)).isSome = true then wh.Commit.isSome = true
    else 2 ≤ (Split wh.Repository.Homepage).length ∧ 10 ≤ len wh.SHA

instance (c : Context) (wh : webhook) : Decidable (buildDefined c wh) := by
  unfold buildDefined
  infer_instance

/-- The CI toggle of the settings that belongs to a build status. -/
def ciToggle (cs : ChatSettings) (status : String) : Bool :=
  if status = "success" then cs.CI.Success
  else if status = "canceled" then cs.CI.Cancel
  else if status = "failed" then cs.CI.Fail
  else false

/-- The Issues toggle of the settings that belongs to an action. -/
def issuesToggle (cs : ChatSettings) (action : String) : Bool :=
  if action = "open" then cs.Issues.Open
  else if action = "update" then cs.Issues.Update
  else if action = "close" then cs.Issues.Close
  else if action = "reopen" then cs.Issues.Reopen
  else true

/-- The MergeRequests toggle of the settings that belongs to an action (`reopen` is
gated by the `Open` toggle). -/
def mrToggle (cs : ChatSettings) (action : String) : Bool :=
  if action = "open" then cs.MR.Open
  else if action = "reopen" then cs.MR.Open
  else if action = "close" then cs.MR.Close
  else if action = "update" then cs.MR.Update
  else if action = "merge" then cs.MR.Merge
  else true

/-! ## Descriptions of the issue and merge request messages -/

/-- The word for a follow-up action on an issue. -/
def issueActionWord (action : String) : String :=
  if action = "reopen" then "reopened" else if action = "close" then "closed" else "updated"

/-- The message of an issue event with action `open`. -/
def issueOpenMessage (lib : Lib) (c : Context) (wh : webhook) (oa : attributes) :
    OutgoingMessage :=
  { Text := mention lib c wh.User.Username wh.UserEmail ++ " " ++ oa.State ++ " " ++
      lib.URL "issue" oa.URL ++ " at " ++
      lib.URL (wh.User.Username ++ " / " ++ wh.Repository.Name) wh.Repository.Homepage ++
      ":\n" ++ lib.Bold oa.Title ++ "\n" ++ oa.Description
    EventID := ["issue_" ++ Itoa oa.ID]
    HTML := true
    WebPreview := false
    ReplyAction := some ⟨.issueReplied, [.str c.ServiceBaseURL, .int oa.ProjectID, .int oa.Iid]⟩ }

/-- The threaded reply of an issue event to the message `id`. -/
def issueReplyMessage (lib : Lib) (c : Context) (wh : webhook) (oa : attributes) (id : Int) :
    OutgoingMessage :=
  { Text := lib.Bold (issueActionWord oa.Action) ++ " by " ++ mention lib c wh.User.Username ""
    HTML := true
    WebPreview := false
    ReplyToMsgID := id
    ReplyAction := some ⟨.issueReplied, [.str c.ServiceBaseURL, .int oa.ProjectID, .int oa.Iid]⟩ }

/-- The standalone message of an issue event, with its link-preview summary. -/
def issueStandaloneMessage (lib : Lib) (c : Context) (wh : webhook) (oa : attributes) :
    OutgoingMessage :=
  { Text := lib.URL (issueActionWord oa.Action)
        (lib.WebPreview "Issue" oa.Title (wh.User.Username ++ " / " ++ wh.Repository.Name)
          oa.URL "") ++
      " by " ++ mention lib c wh.User.Username ""
    HTML := true
    ReplyAction := some ⟨.issueReplied, [.str c.ServiceBaseURL, .int oa.ProjectID, .int oa.Iid]⟩ }

/-- The message of a merge request event with action `open`. -/
def mrOpenMessage (lib : Lib) (c : Context) (wh : webhook) (oa : attributes) : OutgoingMessage :=
  { Text := mention lib c wh.User.Username wh.UserEmail ++ " " ++ oa.State ++ " " ++
      lib.URL "merge request" oa.URL ++ " at " ++
      lib.URL (wh.UserName ++ " / " ++ wh.Repository.Name) wh.Repository.Homepage ++
      ":\n" ++ lib.Bold oa.Title ++
      (if oa.Description ≠ "" then "\n" ++ oa.Description else oa.Description)
    EventID := ["mr_" ++ Itoa oa.ID]
    HTML := true
    WebPreview := false }

/-- The threaded reply of a merge request event to the message `id`. -/
def mrReplyMessage (lib : Lib) (c : Context) (wh : webhook) (oa : attributes) (id : Int) :
    OutgoingMessage :=
  { Text := lib.URL "merge request" oa.URL ++ " " ++ oa.State ++ " by " ++
      mention lib c wh.User.Username wh.UserEmail
    HTML := true
    ReplyToMsgID := id
    WebPreview := false }

/-- The standalone message of a merge request event, with its link-preview summary. -/
def mrStandaloneMessage (lib : Lib) (c : Context) (wh : webhook) (oa : attributes) :
    OutgoingMessage :=
  { Text := lib.URL "Merge request"
        (lib.WebPreview "Merge Request" oa.Title oa.Description oa.URL "") ++
      " " ++ oa.State ++ " by " ++ mention lib c wh.User.Username wh.UserEmail
    HTML := true }

/-! ## Description of the note message -/

/-- The message of a note event, from the values `noteType`, `originMsg` and `wp`
left by the switch over the noteable type. -/
def noteMessage (lib : Lib) (c : Context) (wh : webhook) (oa : attributes)
    (r : String × Option Message × String) : OutgoingMessage :=
  match r.2.1 with
  | none =>
    { Text := mention lib c wh.User.Username "" ++ " commented on " ++
        lib.URL (if r.1 = "" then lib.ToLower oa.NoteableType else r.1)
          (if r.2.2 = "" then oa.URL else r.2.2) ++
        ": " ++ oa.Note
      HTML := true }
  | some origin =>
    { Text := mention lib c wh.User.Username "" ++ ": " ++ oa.Note
      WebPreview := false
      HTML := true
      ReplyToMsgID := origin.MsgID }

/-! ## A sample instance of the library functions

Used to evaluate the handlers on concrete payloads: plain HTML tags, format verbs
filled from left to right, identity escaping. -/

/-- Rendering of one operand by `fillVerbs`. -/
def fmtOperand : FmtArg → String
  | .str s => s
  | .int i => Itoa i
  | .f32 q => toString q.floor ++ "." ++ toString ((q * 10).floor % 10)

/-- Fills the verbs `%s`, `%d` and `%.1f` of a format from left to right. -/
def fillVerbs : List Char → List FmtArg → String
  | [], _ => ""
  | '%' :: 's' :: rest, a :: as => fmtOperand a ++ fillVerbs rest as
  | '%' :: 'd' :: rest, a :: as => fmtOperand a ++ fillVerbs rest as
  | '%' :: '.' :: '1' :: 'f' :: rest, a :: as => fmtOperand a ++ fillVerbs rest as
  | ch :: rest, as => String.singleton ch ++ fillVerbs rest as

/-- The sample library instance. -/
def htmlLib : Lib where
  Bold s := "<b>" ++ s ++ "</b>"
  URL text url := "<a href=\"" ++ url ++ "\">" ++ text ++ "</a>"
  Sprintf format args := fillVerbs format.data args
  QueryEscape s := s
  ToLower s := String.mk (s.data.map Char.toLower)
  ToUpper s := String.mk (s.data.map Char.toUpper)
  WebPreview _ _ _ url _ := url
  BaseURL _ u := u

/-! ## Sample payloads -/

/-- A push of one commit authored by the pusher. -/
def ownPush : webhook :=
  { ObjectKind := "push"
    Ref := "refs/heads/master"
    UserName := "ann"
    UserEmail := "ann@x.org"
    ProjectID := 4
    After := "0123456789abcdef"
    Before := "fedcba9876543210"
    Repository := { Name := "repo", Homepage := "https://git.x.org/ann/repo" }
    Commits := [{ ID := "0123456789abcdef", Message := "fix\n", URL := "u1"
                  Author := { Name := "ann", Email := "ann@x.org" } }] }

/-- The push `ownPush` with an empty `after` hash. -/
def shortHashPush : webhook :=
  { ownPush with After := "" }

/-- A push of three commits: two by another author, one by the pusher. -/
def mixedPush : webhook :=
  { ObjectKind := "push"
    Ref := "refs/heads/master"
    UserName := "ann"
    UserEmail := "ann@x.org"
    ProjectID := 4
    After := "cccccccccccc"
    Before := "000000000000"
    Repository := { Name := "repo", Homepage := "https://git.x.org/ann/repo" }
    Commits :=
      [{ ID := "aaaaaaaaaaaa", Message := "one", URL := "u1"
         Author := { Name := "bob", Email := "bob@x.org" } },
       { ID := "bbbbbbbbbbbb", Message := "two", URL := "u2"
         Author := { Name := "ann", Email := "ann@x.org" } },
       { ID := "cccccccccccc", Message := "three", URL := "u3"
         Author := { Name := "bob", Email := "bob@x.org" } }] }

/-- The context after `ownPush` was handled in a fresh chat. -/
def afterOwnPush : Context :=
  (webhookHandler htmlLib {} ownPush).getD {}

/-- A failed build of the last commit of `ownPush`. -/
def failedBuild : webhook :=
  { ObjectKind := "build"
    SHA := "0123456789abcdef"
    BuildID := 9
    BuildStatus := "failed"
    BuildName := "test"
    BuildStage := "test"
    Repository := { Name := "repo", Homepage := "https://git.x.org/ann/repo" }
    Commit := some { SHA := "0123456789abcdef" } }

/-- The build `failedBuild`, allowed to fail. -/
def allowedFailBuild : webhook :=
  { failedBuild with BuildAllowFailure := true }

/-- A `close` event on the issue with id 7. -/
def closeIssue : webhook :=
  { ObjectKind := "issue"
    User := { Name := "Ann", Username := "ann" }
    Repository := { Name := "repo", Homepage := "https://git.x.org/ann/repo" }
    ObjectAttributes := some
      { ID := 7, Iid := 2, ProjectID := 4, Title := "bug", State := "closed", Action := "close"
        URL := "https://git.x.org/ann/repo/issues/2" } }

/-- The `open` event on the issue with id 7. -/
def openIssue : webhook :=
  { ObjectKind := "issue"
    User := { Name := "Ann", Username := "ann" }
    Repository := { Name := "repo", Homepage := "https://git.x.org/ann/repo" }
    ObjectAttributes := some
      { ID := 7, Iid := 2, ProjectID := 4, Title := "bug", State := "opened", Action := "open"
        URL := "https://git.x.org/ann/repo/issues/2" } }

/-- A comment on the issue with id 7. -/
def issueNote : webhook :=
  { ObjectKind := "note"
    User := { Name := "Ann", Username := "ann" }
    Repository := { Name := "repo", Homepage := "https://git.x.org/ann/repo" }
    Issue := some { ID := 7, Title := "bug", Iid := 2 }
    ObjectAttributes := some
      { ID := 31, ProjectID := 4, Note := "looks good", NoteableType := "Issue"
        URL := "https://git.x.org/ann/repo/issues/2#note_31" } }

/-- A chat whose user has authorized and just replied `thanks`. -/
def authedChat : Context :=
  { ProviderSetup := true, OAuthValid := true, Message := { Text := "thanks" } }

/-! ## The comment jobs -/

/-- The note returned by the comment API (`api.Note`): its id and creation time. -/
structure Note where
  ID : Int := 0
  CreatedAt : String := ""
deriving DecidableEq, Repr

/-- The calls of the comment API the jobs make, each returning the created note (or
`nil`) and an error (or `nil`). -/
structure NotesApi where
  CreateIssueNote : Int → Int → String → Option Note × Option String
  CreateMergeRequestNote : Int → Int → String → Option Note × Option String
  CreateSnippetNote : Int → Int → String → Option Note × Option String
  CreateCommitNote : Int → String → String → Option Note × Option String

/-- Models `c.Message.UpdateEventsID`: the key is added to the event keys of the
message the job runs for. -/
def UpdateEventsID (c : Context) (key : String) : Context :=
  { c with Message := { c.Message with EventID := c.Message.EventID ++ [key] } }

/-- The function `sendIssueComment`: the context after the call and the returned
error. -/
def sendIssueComment (api : NotesApi) (c : Context) (projectID issueID : Int) (text : String) :
    Context × Option String :=
  let (note, err) := api.CreateIssueNote projectID issueID text
  let c :=
    match note with
    | some n => UpdateEventsID c ("issue_note_" ++ Itoa n.ID)
    | none => c
  (c, err)

/-- The function `sendMRComment`. -/
def sendMRComment (api : NotesApi) (c : Context) (projectID MergeRequestID : Int)
    (text : String) : Context × Option String :=
  let (note, err) := api.CreateMergeRequestNote projectID MergeRequestID text
  let c :=
    match note with
    | some n => UpdateEventsID c (noteUniqueID projectID (Itoa n.ID))
    | none => c
  (c, err)

/-- The function `sendSnippetComment`. -/
def sendSnippetComment (api : NotesApi) (c : Context) (projectID SnippetID : Int)
    (text : String) : Context × Option String :=
  let (note, err) := api.CreateSnippetNote projectID SnippetID text
  let c :=
    match note with
    | some n => UpdateEventsID c (noteUniqueID projectID (Itoa n.ID))
    | none => c
  (c, err)

/-- The function `sendCommitComment`: it returns the error when there is one and
otherwise reads `note.CreatedAt`, which panics on a `nil` note. -/
def sendCommitComment (api : NotesApi) (c : Context) (projectID : Int) (commitID : String)
    (msg : IncomingMessage) : Option (Context × Option String) :=
  let (note, err) := api.CreateCommitNote projectID commitID msg.Text
  match err with
  | some e => some (c, some e)
  | none =>
    match note with
    | none => none
    | some n => some (UpdateEventsID c (noteUniqueID projectID n.CreatedAt), none)

/-! ## The application id and secret dialogue -/

/-- The predicate `unicode.IsSpace`. -/
def isSpace (ch : Char) : Bool :=
  ch = '\t' || ch = '\n' || ch.val = 0x0B || ch.val = 0x0C || ch = '\r' || ch = ' ' ||
    ch.val = 0x85 || ch.val = 0xA0 || ch.val = 0x1680 ||
    (0x2000 ≤ ch.val && ch.val ≤ 0x200A) || ch.val = 0x2028 || ch.val = 0x2029 ||
    ch.val = 0x202F || ch.val = 0x205F || ch.val = 0x3000

/-- Models `strings.TrimSpace`: leading and trailing white space removed. -/
def TrimSpace (s : String) : String :=
  String.mk ((s.data.dropWhile isSpace).reverse.dropWhile isSpace).reverse

/-- Whether the characters `sub` stand at the head of `s`. -/
def startsWithChars : List Char → List Char → Bool
  | _, [] => true
  | [], _ :: _ => false
  | a :: s, b :: sub => a = b && startsWithChars s sub

/-- Whether the characters `sub` occur in `s`. -/
def containsChars : List Char → List Char → Bool
  | [], sub => startsWithChars [] sub
  | a :: s, sub => startsWithChars (a :: s) sub || containsChars s sub

/-- Models `strings.Contains`. -/
def Contains (s sub : String) : Bool :=
  containsChars s.data sub.data

/-- Models `Context.SaveOAuthProvider`: the provider of the service is set up from
then on. -/
def SaveOAuthProvider (c : Context) : Context :=
  { c with ProviderSetup := true }

/-- The function `hostedAppIDEntered`: the context after the call and the returned
error. -/
def hostedAppIDEntered (lib : Lib) (c : Context) (baseURL : String) : Context × Option String :=
  let c := SetServiceBaseURL lib c baseURL
  let appID := TrimSpace c.Message.Text
  if len appID ≠ 64 then
    let msg : OutgoingMessage :=
      { Text := "Looks like this *Application ID* is incorrect. Must be a 64 HEX symbols. Please try again"
        HTML := true
        ForceReply := true }
    (Send c (msg.SetReplyAction .hostedAppIDEntered [.str baseURL]),
      some ("Application ID '" ++ appID ++ "' is incorrect"))
  else
    let msg : OutgoingMessage :=
      { Text := "Great! Now write me the *Secret* for this application"
        HTML := true
        ForceReply := true }
    (Send c (msg.SetReplyAction .hostedAppSecretEntered [.str baseURL, .str appID]), none)

/-- The function `hostedAppSecretEntered`.  The trial token exchange is the parameter
`exchange` (base URL, application id, secret), giving the text of the error it
returns or `none` for no error, on which `err.Error()` panics. -/
def hostedAppSecretEntered (lib : Lib) (exchange : String → String → String → Option String)
    (c : Context) (baseURL appID : String) : Option (Context × Option String) :=
  let c := SetServiceBaseURL lib c baseURL
  let appSecret := TrimSpace c.Message.Text
  if len appSecret ≠ 64 then
    let msg : OutgoingMessage :=
      { Text := "Looks like this *Application Secret* is incorrect. Must be a 64 HEX symbols. Please try again"
        HTML := true
        WebPreview := false
        ForceReply := true }
    some (Send c (msg.SetReplyAction .hostedAppSecretEntered [.str baseURL]),
      some ("Application Secret '" ++ appSecret ++ "' is incorrect"))
  else
    match exchange c.ServiceBaseURL appID appSecret with
    | none => none
    | some e =>
      if Contains e "\"error\":\"invalid_grant\"" = true then
        let c := SaveOAuthProvider c
        let (_, c) := mustBeAuthed c
        some (c, none)
      else
        let msg : OutgoingMessage :=
          { Text := "Application ID or Secret is incorrect. Please try again. Enter *Application ID*"
            HTML := true
            ForceReply := true }
        some (Send c (msg.SetReplyAction .hostedAppIDEntered [.str baseURL]), none)

/-! ## Sample inputs of the jobs and of the dialogue -/

/-- A comment API that creates note 31 at a fixed time, without error. -/
def sampleApi : NotesApi where
  CreateIssueNote _ _ _ := (some { ID := 31, CreatedAt := "2017-03-01T10:00:00Z" }, none)
  CreateMergeRequestNote _ _ _ := (some { ID := 31, CreatedAt := "2017-03-01T10:00:00Z" }, none)
  CreateSnippetNote _ _ _ := (some { ID := 31, CreatedAt := "2017-03-01T10:00:00Z" }, none)
  CreateCommitNote _ _ _ := (some { ID := 0, CreatedAt := "2017-03-01T10:00:00Z" }, none)

/-- An application id of 64 hexadecimal characters. -/
def sampleAppID : String :=
  "0123456789abcdef0123456789abcdef0123456789abcdef0123456789abcdef"

/-- A chat whose user just sent an application id of 63 hexadecimal characters. -/
def shortIDChat : Context :=
  { Message := { Text := "0123456789abcdef0123456789abcdef0123456789abcdef0123456789abcde" } }

/-- A chat whose user just sent the application id `sampleAppID`, with a line break. -/
def goodIDChat : Context :=
  { Message := { Text := " 0123456789abcdef0123456789abcdef0123456789abcdef0123456789abcdef\n" } }

/-- A chat whose user just sent a secret of three characters. -/
def shortSecretChat : Context :=
  { Message := { Text := "abc" } }

/-- A trial token exchange that is always rejected with `invalid_grant`. -/
def rejectingExchange : String → String → String → Option String :=
  fun _ _ _ => some "oauth2: cannot fetch token: 401\nResponse: \x7b\"error\":\"invalid_grant\"\x7d"

/-- The `open` event of the merge request with id 9. -/
def openMR : webhook :=
  { ObjectKind := "merge_request"
    User := { Name := "Ann", Username := "ann" }
    UserName := "ann"
    Repository := { Name := "repo", Homepage := "https://git.x.org/ann/repo" }
    ObjectAttributes := some
      { ID := 9, Iid := 3, ProjectID := 4, Title := "feature", State := "opened"
        Action := "open", URL := "https://git.x.org/ann/repo/merge_requests/3" } }

/-- The attributes of a comment with the text `nice` on a commit. -/
def commitNoteAttributes : attributes :=
  { ID := 31, ProjectID := 4, Note := "nice", NoteableType := "Commit"
    CreatedAt := "2017-03-01T10:00:00Z", CommitID := "0123456789abcdef"
    URL := "https://git.x.org/ann/repo/commit/0123456789abcdef#note_31" }

/-- The note event of the comment `commitNoteAttributes`. -/
def commitNote : webhook :=
  { ObjectKind := "note"
    User := { Name := "Ann", Username := "ann" }
    Repository := { Name := "repo", Homepage := "https://git.x.org/ann/repo" }
    ObjectAttributes := some commitNoteAttributes }

/-- A chat whose store holds the record `sendCommitComment` leaves for project 4 and
the creation time of `commitNoteAttributes`. -/
def commentedCommitChat : Context :=
  { Messages := [{ MsgID := 5, EventID := ["note_4_2017-03-01T10:00:00Z"] }] }

/-- An issue event without object attributes. -/
def bareIssue : webhook :=
  { ObjectKind := "issue" }

/-- A merge request event without object attributes. -/
def bareMR : webhook :=
  { ObjectKind := "merge_request" }

/-- A note event without object attributes. -/
def bareNote : webhook :=
  { ObjectKind := "note" }

/-- A comment on a merge request whose payload has no merge request object. -/
def orphanMRNote : webhook :=
  { ObjectKind := "note"
    ObjectAttributes := some { ID := 31, ProjectID := 4, Note := "ok", NoteableType := "MergeRequest" } }

/-- The build `failedBuild` without its commit object. -/
def orphanBuild : webhook :=
  { failedBuild with Commit := none }

/-! ## Stored settings, stored records and runs of events -/

/-- The settings record of a chat is `s`: the record the chat saved, or, for a chat
that never saved settings, the defaults (every Issues and MergeRequests toggle on, CI
success off, CI fail and CI cancel on). -/
def storedSettings (c : Context) (s : ChatSettings) : Prop :=
  c.Settings = some s ∨
    (c.Settings = none ∧
      s = { MR := { Open := true, Close := true, Update := true, Merge := true }
            Issues := { Open := true, Close := true, Update := true, Reopen := true }
            CI := { Success := false, Fail := true, Cancel := true } })

/-- Every stored record carries a positive message id, as the transport assigns. -/
def positiveIDs (c : Context) : Prop :=
  ∀ r ∈ c.Messages, 0 < r.MsgID

/-- The context `c'` keeps the saved settings of `c`, and its store is the store of
`c` followed by records with positive message ids. -/
def grows (c c' : Context) : Prop :=
  c'.Settings = c.Settings ∧
    ∃ extra, c'.Messages = c.Messages ++ extra ∧ ∀ r ∈ extra, 0 < r.MsgID

/-- The webhook events of a list handled one after the other; `none` when a call
panics. -/
def runEvents (lib : Lib) (c : Context) : List webhook → Option Context
  | [] => some c
  | wh :: rest => (webhookHandler lib c wh).bind (fun c' => runEvents lib c' rest)

/-- A failed build whose payload carries an empty stage. -/
def emptyStageBuild : webhook :=
  { failedBuild with BuildStage := "" }

/-- A chat that saved settings with the CI fail toggle off and CI success on. -/
def mutedFailChat : Context :=
  { Settings := some
      { MR := { Open := true, Close := true, Update := true, Merge := true }
        Issues := { Open := true, Close := true, Update := true, Reopen := true }
        CI := { Success := true, Fail := false, Cancel := true } } }

/-- The context after `openIssue` was handled in a fresh chat. -/
def afterOpenIssue : Context :=
  (webhookHandler htmlLib {} openIssue).getD {}

/-- The context after `openIssue` and then the push `ownPush` were handled in a fresh
chat. -/
def afterOpenIssueAndPush : Context :=
  (runEvents htmlLib afterOpenIssue [ownPush]).getD {}

/-! ## Auxiliary facts -/

/-- The function `chatSettings` reads the stored settings record. -/
theorem chatSettings_of_stored (c : Context) (s : ChatSettings) (hs : storedSettings c s) :
    chatSettings c = s := by
  rcases hs with h | ⟨h, hd⟩
  · simp [chatSettings, h]
  · subst hd
    simp [chatSettings, h, defaultChatSettings]

theorem splitAux_ne_nil (sep : Char) (cur rest : List Char) : splitAux sep cur rest ≠ [] := by
  induction rest generalizing cur with
  | nil => simp [splitAux]
  | cons ch rest ih =>
    unfold splitAux
    split
    · simp
    · exact ih _

theorem Split_ne_nil (s : String) : Split s ≠ [] :=
  splitAux_ne_nil _ _ _

theorem index_last {α : Type} (l : List α) (h : l ≠ []) :
    index l ((l.length : Int) - 1) = some (l.getLast h) := by
  have hpos : 0 < l.length := List.length_pos.mpr h
  have h0 : (0 : Int) ≤ (l.length : Int) - 1 := by omega
  have h1 : ((l.length : Int) - 1).toNat = l.length - 1 := by omega
  simp only [index, h0, if_true, h1]
  rw [List.getLast_eq_getElem]
  simp [List.get?_eq_getElem?, List.getElem?_eq_getElem (show l.length - 1 < l.length by omega)]

theorem index_lastD {α : Type} (l : List α) (h : l ≠ []) (d : α) :
    index l ((l.length : Int) - 1) = some (l.getLastD d) := by
  rw [index_last l h]
  cases l with
  | nil => exact absurd rfl h
  | cons a l => rfl

theorem index_zero {α : Type} (a : α) (l : List α) : index (a :: l) 0 = some a := by
  simp [index]

theorem index_Split_last (s : String) :
    index (Split s) (((Split s).length : Int) - 1) = some ((Split s).getLastD "") :=
  index_lastD _ (Split_ne_nil s) _

theorem slice_eq_some (s : String) (lo hi : Nat) (h1 : lo ≤ hi) (h2 : hi ≤ len s) :
    slice s lo hi = some (s.extract ⟨lo⟩ ⟨hi⟩) := by
  simp [slice, h1, h2]

theorem slice_eq_none (s : String) (lo hi : Nat) (h : ¬ hi ≤ len s) : slice s lo hi = none := by
  simp [slice, h]

/-- The preamble of the handler changes the service base URL only. -/
theorem setBaseURL_eq (lib : Lib) (c : Context) (wh : webhook) :
    ∃ u, setBaseURL lib c wh = { c with ServiceBaseURL := u } := by
  unfold setBaseURL
  split
  · exact ⟨_, rfl⟩
  · split
    · split
      · exact ⟨_, rfl⟩
      · split
        · exact ⟨_, rfl⟩
        · exact ⟨c.ServiceBaseURL, rfl⟩
    · exact ⟨c.ServiceBaseURL, rfl⟩

theorem setBaseURL_Sent (lib : Lib) (c : Context) (wh : webhook) :
    (setBaseURL lib c wh).Sent = c.Sent := by
  obtain ⟨u, hu⟩ := setBaseURL_eq lib c wh
  rw [hu]

theorem Send_setBaseURL_Sent (lib : Lib) (c : Context) (wh : webhook) (msg : OutgoingMessage) :
    (Send (setBaseURL lib c wh) msg).Sent = c.Sent ++ [msg] := by
  simp only [Send, setBaseURL_Sent]

theorem setBaseURL_Edits (lib : Lib) (c : Context) (wh : webhook) :
    (setBaseURL lib c wh).Edits = c.Edits := by
  obtain ⟨u, hu⟩ := setBaseURL_eq lib c wh
  rw [hu]

theorem setBaseURL_Settings (lib : Lib) (c : Context) (wh : webhook) :
    chatSettings (setBaseURL lib c wh) = chatSettings c := by
  obtain ⟨u, hu⟩ := setBaseURL_eq lib c wh
  rw [hu]
  rfl

theorem setBaseURL_Find (lib : Lib) (c : Context) (wh : webhook) (key : String) :
    FindMessageByEventID (setBaseURL lib c wh) key = FindMessageByEventID c key := by
  obtain ⟨u, hu⟩ := setBaseURL_eq lib c wh
  rw [hu]
  rfl

theorem setBaseURL_Cache (lib : Lib) (c : Context) (wh : webhook) (key : String) :
    Cache (setBaseURL lib c wh) key = Cache c key := by
  obtain ⟨u, hu⟩ := setBaseURL_eq lib c wh
  rw [hu]
  rfl

theorem setBaseURL_mention (lib : Lib) (c : Context) (wh : webhook) :
    mention lib (setBaseURL lib c wh) = mention lib c := by
  obtain ⟨u, hu⟩ := setBaseURL_eq lib c wh
  rw [hu]
  rfl

theorem setBaseURL_commitLine (lib : Lib) (c : Context) (wh : webhook) :
    commitLine lib (setBaseURL lib c wh) = commitLine lib c := by
  obtain ⟨u, hu⟩ := setBaseURL_eq lib c wh
  rw [hu]
  rfl

theorem webhookHandler_push (lib : Lib) (c : Context) (wh : webhook)
    (hkind : wh.ObjectKind = "push") :
    webhookHandler lib c wh = webhookHandlerPush lib (setBaseURL lib c wh) {} wh := by
  simp [webhookHandler, hkind]

/-- The flag of the first loop is raised exactly when some commit has both an author
e-mail and an author name different from the pusher's. -/
theorem anyOherPersonCommits_iff (wh : webhook) :
    anyOherPersonCommits wh = true ↔
      ∃ cm ∈ wh.Commits, cm.Author.Email ≠ wh.UserEmail ∧ cm.Author.Name ≠ wh.UserName := by
  have key : ∀ (l : List commit) (b : Bool),
      l.foldl (otherPersonStep wh) b = true ↔
        b = true ∨ ∃ cm ∈ l, cm.Author.Email ≠ wh.UserEmail ∧ cm.Author.Name ≠ wh.UserName := by
    intro l
    induction l with
    | nil => intro b; simp
    | cons a l ih =>
      intro b
      rw [List.foldl_cons, ih]
      unfold otherPersonStep
      by_cases h : a.Author.Email ≠ wh.UserEmail ∧ a.Author.Name ≠ wh.UserName
      · simp only [if_pos h, true_or, true_iff]
        exact Or.inr ⟨a, List.mem_cons_self _ _, h⟩
      · simp only [if_neg h, List.mem_cons, exists_eq_or_imp]
        tauto
  simpa [anyOherPersonCommits] using key wh.Commits false

/-- The second loop appends one `commitLine` per commit. -/
theorem foldl_pushStep_text (lib : Lib) (c : Context) (flag : Bool) (l : List commit)
    (acc : PushAcc) :
    (l.foldl (pushStep lib c flag) acc).text =
      acc.text ++ concatLines (l.map (commitLine lib c flag)) := by
  induction l generalizing acc with
  | nil => simp [concatLines]
  | cons a l ih =>
    rw [List.foldl_cons, ih]
    cases flag <;> simp [pushStep, commitLine, concatLines, String.append_assoc]

theorem pushLines_eq (lib : Lib) (c : Context) (wh : webhook) :
    pushLines lib c wh =
      concatLines (wh.Commits.map (commitLine lib c (anyOherPersonCommits wh))) := by
  unfold pushLines
  rw [foldl_pushStep_text]
  simp

/-! ## The push case -/

/-- The `push` case on a payload with commits whose hash slices are defined. -/
theorem push_commits (lib : Lib) (c : Context) (wh : webhook)
    (hne : wh.Commits ≠ []) (hafter : 10 ≤ len wh.After)
    (hbefore : 1 < wh.Commits.length → 10 ≤ len wh.Before) :
    webhookHandlerPush lib c {} wh =
      some (Send (SetCache c ("commit_" ++ (wh.Commits.getLast hne).ID)
          (pushText lib c wh (pushPreview lib c wh)))
        (pushMessage lib c wh (wh.Commits.getLast hne).ID)) := by
  have hpos : 0 < wh.Commits.length := List.length_pos.mpr hne
  have hlast := index_last wh.Commits hne
  have hsa := slice_eq_some wh.After 0 10 (by omega) hafter
  by_cases h1 : wh.Commits.length = 1
  · obtain ⟨cm, hcm⟩ : ∃ cm, wh.Commits = [cm] := by
      cases hc : wh.Commits with
      | nil => simp [hc] at hpos
      | cons a l =>
        cases l with
        | nil => exact ⟨a, rfl⟩
        | cons b l => simp [hc] at h1
    simp only [webhookHandlerPush, index_Split_last, hlast, hsa]
    simp [hcm, index_zero, pushText, pushHeader, pushAction, pushBranch, pushLines, pushPreview,
      pushMessage, OutgoingMessage.SetReplyAction]
  · have hgt : 1 < wh.Commits.length := by omega
    have hsb := slice_eq_some wh.Before 0 10 (by omega) (hbefore hgt)
    have hact : pushAction c wh =
        ⟨.commitsReplied, [.str c.ServiceBaseURL, .int wh.ProjectID, .commits wh.Commits]⟩ := by
      unfold pushAction
      split
      · rename_i cm hcm
        simp [hcm] at h1
      · rfl
    simp only [webhookHandlerPush, index_Split_last, hlast, hsa, hsb]
    simp [hgt, h1, hpos, hact, pushText, pushHeader, pushBranch, pushLines, pushPreview,
      pushMessage, OutgoingMessage.SetReplyAction]

/-- The `push` case panics on a payload with commits when a hash slice is undefined. -/
theorem push_panics (lib : Lib) (c : Context) (wh : webhook) (hne : wh.Commits ≠ [])
    (h : ¬ 10 ≤ len wh.After ∨ (1 < wh.Commits.length ∧ ¬ 10 ≤ len wh.Before)) :
    webhookHandlerPush lib c {} wh = none := by
  have hpos : 0 < wh.Commits.length := List.length_pos.mpr hne
  simp only [webhookHandlerPush, index_Split_last]
  by_cases hgt : 1 < wh.Commits.length
  · rcases h with h | ⟨-, h⟩
    · have hs := slice_eq_none wh.After 0 10 h
      cases hb : slice wh.Before 0 10 <;> simp [hgt, hs]
    · have hs := slice_eq_none wh.Before 0 10 h
      simp [hgt, hs]
  · have h1 : wh.Commits.length = 1 := by omega
    rcases h with h | ⟨h, -⟩
    · have hs := slice_eq_none wh.After 0 10 h
      simp [h1, hs]
    · exact absurd h hgt

/-- Whenever the `push` case returns on a payload with commits, it has sent the push
message and cached its text. -/
theorem push_of_some (lib : Lib) (c c' : Context) (wh : webhook) (hne : wh.Commits ≠ [])
    (h : webhookHandlerPush lib c {} wh = some c') :
    c' = Send (SetCache c ("commit_" ++ (wh.Commits.getLast hne).ID)
        (pushText lib c wh (pushPreview lib c wh)))
      (pushMessage lib c wh (wh.Commits.getLast hne).ID) := by
  by_cases hafter : 10 ≤ len wh.After
  · by_cases hbefore : 1 < wh.Commits.length → 10 ≤ len wh.Before
    · rw [push_commits lib c wh hne hafter hbefore] at h
      exact (Option.some.inj h).symm
    · have hb : 1 < wh.Commits.length ∧ ¬ 10 ≤ len wh.Before := by
        constructor
        · by_contra hc
          exact hbefore (fun h1 => absurd h1 hc)
        · intro hc
          exact hbefore (fun _ => hc)
      rw [push_panics lib c wh hne (Or.inr hb)] at h
      exact absurd h (by simp)
  · rw [push_panics lib c wh hne (Or.inl hafter)] at h
    exact absurd h (by simp)

/-- C1 (amended): for every push event with at least one commit whose `after` hash
has at least 10 bytes (and, for several commits, whose `before` hash has too),
`webhookHandler` sends exactly one notification, edits nothing, and the notification
is tagged with the single event key `commit_` followed by the id of the last
commit. -/
theorem push_sends_one_notification (lib : Lib) (c : Context) (wh : webhook)
    (hkind : wh.ObjectKind = "push") (hne : wh.Commits ≠ [])
    (hafter : 10 ≤ len wh.After) (hbefore : 1 < wh.Commits.length → 10 ≤ len wh.Before) :
    ∃ c' m, webhookHandler lib c wh = some c' ∧ c'.Sent = c.Sent ++ [m] ∧
      c'.Edits = c.Edits ∧ m.EventID = ["commit_" ++ (wh.Commits.getLast hne).ID] := by
  have h := push_commits lib (setBaseURL lib c wh) wh hne hafter hbefore
  rw [← webhookHandler_push lib c wh hkind] at h
  refine ⟨_, pushMessage lib (setBaseURL lib c wh) wh (wh.Commits.getLast hne).ID, h, ?_, ?_, rfl⟩
  · simp [Send, SetCache, setBaseURL_Sent]
  · simp [Send, SetCache, setBaseURL_Edits]

/-- Witness of C1 (amended) on the one-commit push `ownPush`. -/
theorem push_sends_one_notification_witness :
    ownPush.ObjectKind = "push" ∧ 10 ≤ len ownPush.After ∧
      ∃ c' m, webhookHandler htmlLib {} ownPush = some c' ∧
        c'.Sent = ({} : Context).Sent ++ [m] ∧ c'.Edits = ({} : Context).Edits ∧
        m.EventID = ["commit_" ++ (ownPush.Commits.getLast (by decide)).ID] :=
  ⟨rfl, by decide,
    push_sends_one_notification htmlLib {} ownPush rfl (by decide) (by decide) (by decide)⟩

/-- C1 (counterexample): a push event with one commit and an empty `after` hash makes
the handler panic at `wh.After[0:10]`, whatever the library functions are, so no
notification is sent. -/
theorem push_short_hash_sends_nothing :
    shortHashPush.ObjectKind = "push" ∧ shortHashPush.Commits.length = 1 ∧
      webhookHandler htmlLib {} shortHashPush = none ∧
      ¬ ∃ lib c c', webhookHandler lib c shortHashPush = some c' := by
  refine ⟨rfl, rfl, by decide, ?_⟩
  rintro ⟨lib, c, c', h⟩
  rw [webhookHandler_push lib c _ rfl,
    push_panics lib _ shortHashPush (by decide) (Or.inl (by decide))] at h
  exact absurd h (by simp)

/-- C7 (amended): for every push event with at least two commits, whenever the
handler returns (it does when both hashes have at least 10 bytes), the message has one
line per commit, and the mention of the commit author is rendered on every commit
line when at least one commit has both an author e-mail and an author name different
from the pusher's, and on no commit line otherwise; the reply action bound on the
message is `commitsReplied` with the full commit list. -/
theorem multi_commit_push (lib : Lib) (c : Context) (wh : webhook)
    (hkind : wh.ObjectKind = "push") (hlen : 2 ≤ wh.Commits.length) :
    (10 ≤ len wh.After → 10 ≤ len wh.Before → (webhookHandler lib c wh).isSome = true) ∧
      ∀ c', webhookHandler lib c wh = some c' →
        ∃ m wp, c'.Sent = c.Sent ++ [m] ∧
          m.Text = pushHeader lib c wh wp ++ "\n" ++
            concatLines (wh.Commits.map (commitLine lib c (anyOherPersonCommits wh))) ∧
          (anyOherPersonCommits wh = true ↔
            ∃ cm ∈ wh.Commits, cm.Author.Email ≠ wh.UserEmail ∧ cm.Author.Name ≠ wh.UserName) ∧
          m.ReplyAction = some ⟨.commitsReplied,
            [.str c'.ServiceBaseURL, .int wh.ProjectID, .commits wh.Commits]⟩ := by
  have hne : wh.Commits ≠ [] := by
    intro h
    simp [h] at hlen
  constructor
  · intro hafter hbefore
    rw [webhookHandler_push lib c wh hkind, push_commits lib _ wh hne hafter (fun _ => hbefore)]
    rfl
  · intro c' h
    rw [webhookHandler_push lib c wh hkind] at h
    have hc := push_of_some lib _ c' wh hne h
    have hact : ∀ c0 : Context, pushAction c0 wh =
        ⟨.commitsReplied, [.str c0.ServiceBaseURL, .int wh.ProjectID, .commits wh.Commits]⟩ := by
      intro c0
      unfold pushAction
      split
      · rename_i cm hcm
        simp [hcm] at hlen
      · rfl
    refine ⟨pushMessage lib (setBaseURL lib c wh) wh (wh.Commits.getLast hne).ID,
      pushPreview lib (setBaseURL lib c wh) wh, ?_, ?_, anyOherPersonCommits_iff wh, ?_⟩
    · rw [hc]
      simp [Send, SetCache, setBaseURL_Sent]
    · simp only [pushMessage, pushText, pushLines_eq, pushHeader, setBaseURL_commitLine,
        setBaseURL_mention]
    · rw [hc]
      simp [pushMessage, hact, Send, SetCache]

/-- Witness of C7 (amended) on the three-commit push `mixedPush`. -/
theorem multi_commit_push_witness :
    mixedPush.ObjectKind = "push" ∧ 2 ≤ mixedPush.Commits.length ∧
      (webhookHandler htmlLib {} mixedPush).isSome = true :=
  ⟨rfl, by decide,
    (multi_commit_push htmlLib {} mixedPush rfl (by decide)).1 (by decide) (by decide)⟩

set_option maxRecDepth 100000 in
/-- C7 (counterexample): in a push of three commits, two by another author and one
by the pusher, all three commit lines carry the mention of their author, the line of
the pusher's own commit included. -/
theorem mixed_push_mentions_every_author :
    (webhookHandler htmlLib {} mixedPush).map (fun c => c.Sent.map (fun m => m.Text)) =
      some ["<b>ann</b> <a href=\"https://git.x.org/ann/repo/compare/000000000000...cccccccccccc\">pushed</a> to <a href=\"https://git.x.org/ann/repo/tree/master\">repo/master</a>\n<b>bob</b>: <a href=\"u1\">one</a>\n<b>ann</b>: <a href=\"u2\">two</a>\n<b>bob</b>: <a href=\"u3\">three</a>\n"] := by
  decide

/-- C8: for every push event with exactly one commit whose author name and e-mail
equal the pusher's, whenever the handler returns (it does when the `after` hash has
at least 10 bytes), the commit line of the message text is the linked commit message
without a mention before it, and the reply action bound on the message is
`commitReplied` with the service base URL, the project id and the id of that commit. -/
theorem single_own_commit_push (lib : Lib) (c : Context) (wh : webhook) (cm : commit)
    (hkind : wh.ObjectKind = "push") (hcm : wh.Commits = [cm])
    (hname : cm.Author.Name = wh.UserName) (hemail : cm.Author.Email = wh.UserEmail) :
    (10 ≤ len wh.After → (webhookHandler lib c wh).isSome = true) ∧
      ∀ c', webhookHandler lib c wh = some c' →
        ∃ m wp, c'.Sent = c.Sent ++ [m] ∧
          m.Text = pushHeader lib c wh wp ++ "\n" ++
            (lib.URL (TrimSuffixNL cm.Message) cm.URL ++ "\n") ∧
          m.ReplyAction = some ⟨.commitReplied,
            [.str c'.ServiceBaseURL, .int wh.ProjectID, .str cm.ID]⟩ := by
  have hne : wh.Commits ≠ [] := by simp [hcm]
  have hflag : anyOherPersonCommits wh = false := by
    cases hf : anyOherPersonCommits wh with
    | false => rfl
    | true =>
      obtain ⟨a, ha, h1, h2⟩ := (anyOherPersonCommits_iff wh).mp hf
      rw [hcm, List.mem_singleton] at ha
      subst ha
      exact absurd hname h2
  constructor
  · intro hafter
    rw [webhookHandler_push lib c wh hkind,
      push_commits lib _ wh hne hafter (fun h => by simp [hcm] at h)]
    rfl
  · intro c' h
    rw [webhookHandler_push lib c wh hkind] at h
    have hc := push_of_some lib _ c' wh hne h
    refine ⟨pushMessage lib (setBaseURL lib c wh) wh (wh.Commits.getLast hne).ID,
      pushPreview lib (setBaseURL lib c wh) wh, ?_, ?_, ?_⟩
    · rw [hc]
      simp [Send, SetCache, setBaseURL_Sent]
    · simp only [pushMessage, pushText, pushLines_eq, pushHeader, setBaseURL_mention,
        setBaseURL_commitLine]
      simp [hcm, hflag, commitLine, concatLines]
    · rw [hc]
      simp [pushMessage, pushAction, hcm, Send, SetCache]

/-- Witness of C8 on the one-commit push `ownPush`. -/
theorem single_own_commit_push_witness :
    ownPush.ObjectKind = "push" ∧ ownPush.Commits.length = 1 ∧
      (webhookHandler htmlLib {} ownPush).isSome = true :=
  ⟨rfl, rfl,
    (single_own_commit_push htmlLib {} ownPush
      { ID := "0123456789abcdef", Message := "fix\n", URL := "u1"
        Author := { Name := "ann", Email := "ann@x.org" } } rfl rfl rfl rfl).1 (by decide)⟩

/-! ## The build case -/

theorem webhookHandler_build (lib : Lib) (c : Context) (wh : webhook)
    (hkind : wh.ObjectKind = "build") :
    webhookHandler lib c wh = webhookHandlerBuild lib (setBaseURL lib c wh) {} wh := by
  simp [webhookHandler, hkind]

theorem Find_mem (c : Context) (key : String) (m : Message)
    (h : FindMessageByEventID c key = some m) : key ∈ m.EventID := by
  have := List.find?_some h
  simpa using this

theorem index_zero_head {α : Type} (l : List α) : index l 0 = l.head? := by
  cases l <;> simp [index]

/-- The edit block changes neither the sent messages nor the settings. -/
theorem buildEdit_frame (c c1 : Context) (wh : webhook) (commitMsg : Option Message)
    (text : String) (h : buildEdit c wh commitMsg text = some c1) :
    c1.Sent = c.Sent ∧ chatSettings c1 = chatSettings c := by
  unfold buildEdit at h
  split at h
  · simp only [Option.bind_eq_bind, Option.bind_eq_some] at h
    obtain ⟨cm, -, h⟩ := h
    split at h
    · simp only [Option.bind_eq_some, Option.pure_def, Option.some.injEq] at h
      obtain ⟨e, -, h⟩ := h
      subst h
      exact ⟨rfl, rfl⟩
    · simp only [Option.pure_def, Option.some.injEq] at h
      subst h
      exact ⟨rfl, rfl⟩
  · simp only [Option.pure_def, Option.some.injEq] at h
    subst h
    exact ⟨rfl, rfl⟩

/-- Whenever the `build` case returns, it has sent one message if the settings
condition holds and none otherwise. -/
theorem build_Sent (lib : Lib) (c c' : Context) (wh : webhook)
    (h : webhookHandlerBuild lib c {} wh = some c') :
    ∃ m, c'.Sent = c.Sent ++ (if buildNotify (chatSettings c) wh = true then [m] else []) := by
  unfold webhookHandlerBuild at h
  simp only [Option.bind_eq_bind, Option.bind_eq_some] at h
  obtain ⟨⟨commit, build, msg⟩, -, c1, hc1, h⟩ := h
  obtain ⟨hs, hcs⟩ := buildEdit_frame _ _ _ _ _ hc1
  rw [hcs] at h
  by_cases hb : buildNotify (chatSettings c) wh = true
  · rw [if_pos hb] at h
    simp only [Option.pure_def, Option.some.injEq] at h
    subst h
    refine ⟨{ msg with
      Text := buildText lib c wh commit
        (if lib.ToLower wh.BuildStage ≠ lib.ToLower wh.BuildName then
          build ++ (" #" ++ wh.BuildName) else build)
      HTML := true }, ?_⟩
    rw [if_pos hb]
    simp only [Send, hs]
  · rw [if_neg hb] at h
    simp only [Option.pure_def, Option.some.injEq] at h
    subst h
    refine ⟨{}, ?_⟩
    rw [if_neg hb]
    simp [hs]

/-- The first part of the `build` case when the push message is found. -/
theorem buildParts_found (lib : Lib) (wh : webhook) (m : Message) (msg : OutgoingMessage)
    (hstage : 1 ≤ len wh.BuildStage) :
    buildParts lib wh (some m) msg =
      some ("", buildLink lib wh, { msg with ReplyToMsgID := m.MsgID, WebPreview := false }) := by
  have h1 := slice_eq_some wh.BuildStage 0 1 (by omega) hstage
  have h2 := slice_eq_some wh.BuildStage 1 (len wh.BuildStage) hstage (le_refl _)
  simp [buildParts, sliceFrom, h1, h2, buildLink]

/-- The first part of the `build` case returns when its slices and index are defined. -/
theorem buildParts_isSome (lib : Lib) (c : Context) (wh : webhook) (msg : OutgoingMessage)
    (h : buildDefined c wh) :
    (buildParts lib wh (FindMessageByEventID c ("commit_" ++ wh.SHA)) msg).isSome = true := by
  obtain ⟨hstage, h⟩ := h
  have h1 := slice_eq_some wh.BuildStage 0 1 (by omega) hstage
  have h2 := slice_eq_some wh.BuildStage 1 (len wh.BuildStage) hstage (le_refl _)
  cases hf : FindMessageByEventID c ("commit_" ++ wh.SHA) with
  | some m => simp [buildParts, sliceFrom, h1, h2]
  | none =>
    simp only [hf, Option.isSome_none, Bool.false_eq_true, if_false] at h
    obtain ⟨hsplit, hsha⟩ := h
    have h3 := slice_eq_some wh.SHA 0 10 (by omega) hsha
    have h4 : ∃ u, index (Split wh.Repository.Homepage)
        (((Split wh.Repository.Homepage).length : Int) - 2) = some u := by
      have h0 : (0 : Int) ≤ ((Split wh.Repository.Homepage).length : Int) - 2 := by omega
      have hlt : (((Split wh.Repository.Homepage).length : Int) - 2).toNat <
          (Split wh.Repository.Homepage).length := by omega
      exact ⟨(Split wh.Repository.Homepage)[(((Split wh.Repository.Homepage).length : Int)
        - 2).toNat], by simp [index, h0, List.get?_eq_getElem?, List.getElem?_eq_getElem hlt]⟩
    obtain ⟨u, hu⟩ := h4
    simp [buildParts, sliceFrom, h1, h2, h3, hu]

/-- The edit block returns when the payload has a commit object. -/
theorem buildEdit_isSome (c : Context) (wh : webhook) (text key : String)
    (h : ∀ m, FindMessageByEventID c key = some m → wh.Commit.isSome = true) :
    (buildEdit c wh (FindMessageByEventID c key) text).isSome = true := by
  cases hf : FindMessageByEventID c key with
  | none => simp [buildEdit]
  | some m =>
    obtain ⟨cm, hcm⟩ := Option.isSome_iff_exists.mp (h m hf)
    have hmem := Find_mem c key m hf
    have hidx : ∃ e, index m.EventID 0 = some e := by
      rw [index_zero_head]
      cases hl : m.EventID with
      | nil => simp [hl] at hmem
      | cons a l => exact ⟨a, rfl⟩
    obtain ⟨e, he⟩ := hidx
    simp only [buildEdit, hcm, Option.bind_eq_bind, Option.some_bind]
    split <;> simp [he]

/-- The `build` case returns when its slices, index and dereference are defined. -/
theorem build_isSome (lib : Lib) (c : Context) (wh : webhook) (h : buildDefined c wh) :
    (webhookHandlerBuild lib c {} wh).isSome = true := by
  obtain ⟨parts, hparts⟩ := Option.isSome_iff_exists.mp (buildParts_isSome lib c wh {} h)
  have hedit : ∀ text, (buildEdit c wh (FindMessageByEventID c ("commit_" ++ wh.SHA))
      text).isSome = true := by
    intro text
    apply buildEdit_isSome
    intro m hm
    have := h.2
    simpa only [hm, Option.isSome_some, if_true] using this
  obtain ⟨commit, build, msg⟩ := parts
  obtain ⟨c1, hc1⟩ := Option.isSome_iff_exists.mp
    (hedit (buildText lib c wh commit (buildNamed lib wh build)))
  unfold buildNamed at hc1
  simp only [webhookHandlerBuild, hparts, Option.bind_eq_bind, Option.some_bind, hc1]
  split <;> rfl

theorem setBaseURL_buildText (lib : Lib) (c : Context) (wh : webhook) :
    buildText lib (setBaseURL lib c wh) wh = buildText lib c wh := by
  obtain ⟨u, hu⟩ := setBaseURL_eq lib c wh
  rw [hu]
  rfl

theorem setBaseURL_buildDefined (lib : Lib) (c : Context) (wh : webhook) :
    buildDefined (setBaseURL lib c wh) wh ↔ buildDefined c wh := by
  unfold buildDefined
  rw [setBaseURL_Find]

/-- The `build` case when the push message and its cached text are found. -/
theorem build_found (lib : Lib) (c : Context) (wh : webhook) (m : Message)
    (cm : commitWithoutID) (e : String)
    (hfind : FindMessageByEventID c ("commit_" ++ wh.SHA) = some m)
    (hhead : m.EventID.head? = some e)
    (hstage : 1 ≤ len wh.BuildStage) (hcm : wh.Commit = some cm)
    (hcache : Cache c ("commit_" ++ cm.SHA) ≠ "") :
    webhookHandlerBuild lib c {} wh =
      some (if buildNotify (chatSettings c) wh = true then
          Send (EditMessagesTextWithEventID c e
              (Cache c ("commit_" ++ cm.SHA) ++ "\n" ++ threadedBuildLine lib c wh))
            (threadedBuildMessage lib c wh m)
        else
          EditMessagesTextWithEventID c e
            (Cache c ("commit_" ++ cm.SHA) ++ "\n" ++ threadedBuildLine lib c wh)) := by
  have hedit : ∀ text, buildEdit c wh (some m) text =
      some (EditMessagesTextWithEventID c e (Cache c ("commit_" ++ cm.SHA) ++ "\n" ++ text)) := by
    intro text
    simp [buildEdit, hcm, hcache, index_zero_head, hhead]
  simp only [webhookHandlerBuild, hfind, buildParts_found lib wh m {} hstage,
    Option.bind_eq_bind, Option.some_bind, hedit]
  have hcs : chatSettings (EditMessagesTextWithEventID c e
      (Cache c ("commit_" ++ cm.SHA) ++ "\n" ++
        buildText lib c wh "" (if lib.ToLower wh.BuildStage ≠ lib.ToLower wh.BuildName then
          buildLink lib wh ++ (" #" ++ wh.BuildName) else buildLink lib wh))) =
      chatSettings c := rfl
  rw [hcs]
  split <;> rfl

/-- C2 (amended): for every build event whose payload has a non-empty stage and a
commit object with the sha of the event, handled while a record tagged
`commit_<sha>` (as the push handler stores it) and a non-empty cached text under that
key are stored: `webhookHandler` resolves the record, edits the message tagged
`commit_<sha>` to its cached text followed by the build-status line, and in addition
sends the status line as a new message, a reply to the push message, exactly when the
settings condition of the build case holds (CI toggle of the outcome on, and the
failure not allowed); otherwise it sends no new message. -/
theorem build_after_push (lib : Lib) (c : Context) (wh : webhook) (m : Message)
    (cm : commitWithoutID) (hkind : wh.ObjectKind = "build")
    (hfind : FindMessageByEventID c ("commit_" ++ wh.SHA) = some m)
    (hrecord : m.EventID = ["commit_" ++ wh.SHA])
    (hcache : Cache c ("commit_" ++ wh.SHA) ≠ "")
    (hcm : wh.Commit = some cm) (hsha : cm.SHA = wh.SHA) (hstage : 1 ≤ len wh.BuildStage) :
    ∃ c', webhookHandler lib c wh = some c' ∧
      c'.Edits = c.Edits ++ [("commit_" ++ wh.SHA,
        Cache c ("commit_" ++ wh.SHA) ++ "\n" ++ threadedBuildLine lib c wh)] ∧
      c'.Sent = c.Sent ++
        (if buildNotify (chatSettings c) wh = true then [threadedBuildMessage lib c wh m]
          else []) ∧
      (buildNotify (chatSettings c) wh = true ↔
        ciToggle (chatSettings c) wh.BuildStatus = true ∧
          ¬ (wh.BuildStatus = "failed" ∧ wh.BuildAllowFailure = true)) := by
  have hfind0 : FindMessageByEventID (setBaseURL lib c wh) ("commit_" ++ wh.SHA) = some m := by
    rw [setBaseURL_Find]
    exact hfind
  have hcache0 : Cache (setBaseURL lib c wh) ("commit_" ++ cm.SHA) ≠ "" := by
    rw [setBaseURL_Cache, hsha]
    exact hcache
  have hhead : m.EventID.head? = some ("commit_" ++ wh.SHA) := by rw [hrecord]; rfl
  have h := build_found lib (setBaseURL lib c wh) wh m cm _ hfind0 hhead hstage hcm hcache0
  rw [← webhookHandler_build lib c wh hkind, setBaseURL_Settings, setBaseURL_Cache, hsha] at h
  have hline : threadedBuildLine lib (setBaseURL lib c wh) wh = threadedBuildLine lib c wh := by
    simp only [threadedBuildLine, setBaseURL_buildText]
  have hmsg : threadedBuildMessage lib (setBaseURL lib c wh) wh m =
      threadedBuildMessage lib c wh m := by
    simp only [threadedBuildMessage, hline]
  rw [hline, hmsg] at h
  refine ⟨_, h, ?_, ?_, ?_⟩
  · split <;> simp [Send, EditMessagesTextWithEventID, setBaseURL_Edits]
  · split <;> simp [Send, EditMessagesTextWithEventID, setBaseURL_Sent]
  · unfold buildNotify ciToggle
    by_cases h1 : wh.BuildStatus = "success"
    · simp [h1]
    · by_cases h2 : wh.BuildStatus = "canceled"
      · simp [h2]
      · by_cases h3 : wh.BuildStatus = "failed"
        · simp [h3]
        · simp [h1, h2, h3]

/-- Witness of C2 (amended): the failed build of the commit of `ownPush`, handled
right after that push. -/
theorem build_after_push_witness :
    webhookHandler htmlLib {} ownPush = some afterOwnPush ∧
      ∃ c', webhookHandler htmlLib afterOwnPush failedBuild = some c' ∧
        c'.Edits = afterOwnPush.Edits ++ [("commit_" ++ failedBuild.SHA,
          Cache afterOwnPush ("commit_" ++ failedBuild.SHA) ++ "\n" ++
            threadedBuildLine htmlLib afterOwnPush failedBuild)] ∧
        c'.Sent = afterOwnPush.Sent ++
          (if buildNotify (chatSettings afterOwnPush) failedBuild = true then
            [threadedBuildMessage htmlLib afterOwnPush failedBuild
              { MsgID := 1, EventID := ["commit_0123456789abcdef"] }]
            else []) ∧
        (buildNotify (chatSettings afterOwnPush) failedBuild = true ↔
          ciToggle (chatSettings afterOwnPush) failedBuild.BuildStatus = true ∧
            ¬ (failedBuild.BuildStatus = "failed" ∧ failedBuild.BuildAllowFailure = true)) :=
  ⟨by decide,
    build_after_push htmlLib afterOwnPush failedBuild
      { MsgID := 1, EventID := ["commit_0123456789abcdef"] } { SHA := "0123456789abcdef" }
      rfl (by decide) rfl (by decide) rfl rfl (by decide)⟩

/-- C2 (counterexample): with the default settings, a failed build of the last commit
of a push handled right after that push edits the push message and also sends a new
message; the chat holds two sent messages afterwards. -/
theorem failed_build_after_push_sends_message :
    webhookHandler htmlLib {} ownPush = some afterOwnPush ∧
      afterOwnPush.Sent.length = 1 ∧
      (webhookHandler htmlLib afterOwnPush failedBuild).map
        (fun c => (c.Sent.length, c.Edits.length)) = some (2, 1) := by
  decide

/-- C6 (amended): for every build event with build_status `failed` and
build_allow_failure true, and for every settings record, `webhookHandler` sends no
message; the status line it renders is the format of the failed case filled with the
marker ❕ and the suffix ` (allowed to fail)`, and the line reaches the chat only as
an edit appended to the cached text of the push message, when that message and its
cached text are found. -/
theorem allowed_failure_build (lib : Lib) (c : Context) (wh : webhook)
    (hkind : wh.ObjectKind = "build") (hstatus : wh.BuildStatus = "failed")
    (hallow : wh.BuildAllowFailure = true) :
    (buildDefined c wh → (webhookHandler lib c wh).isSome = true) ∧
      (∀ c', webhookHandler lib c wh = some c' → c'.Sent = c.Sent) ∧
      (∀ commit build, buildText lib c wh commit build =
        lib.Sprintf ("%s CI: " ++ commit ++ build ++ " failed after %.1f sec%s")
          [.str "❕", .f32 wh.BuildDuration, .str " (allowed to fail)"]) ∧
      (∀ m cm e, FindMessageByEventID c ("commit_" ++ wh.SHA) = some m →
        m.EventID.head? = some e → 1 ≤ len wh.BuildStage → wh.Commit = some cm →
        Cache c ("commit_" ++ cm.SHA) ≠ "" →
        ∃ c', webhookHandler lib c wh = some c' ∧
          c'.Edits = c.Edits ++
            [(e, Cache c ("commit_" ++ cm.SHA) ++ "\n" ++ threadedBuildLine lib c wh)]) := by
  have hno : ∀ cs, buildNotify cs wh = false := by
    intro cs
    simp [buildNotify, hstatus, hallow]
  refine ⟨?_, ?_, ?_, ?_⟩
  · intro hdef
    rw [webhookHandler_build lib c wh hkind]
    exact build_isSome lib _ wh ((setBaseURL_buildDefined lib c wh).mpr hdef)
  · intro c' h
    rw [webhookHandler_build lib c wh hkind] at h
    obtain ⟨m, hm⟩ := build_Sent lib _ c' wh h
    rw [hm, hno, setBaseURL_Sent]
    simp
  · intro commit build
    simp [buildText, hstatus, hallow]
  · intro m cm e hfind hhead hstage hcm hcache
    have hfind0 : FindMessageByEventID (setBaseURL lib c wh) ("commit_" ++ wh.SHA) = some m := by
      rw [setBaseURL_Find]
      exact hfind
    have hcache0 : Cache (setBaseURL lib c wh) ("commit_" ++ cm.SHA) ≠ "" := by
      rw [setBaseURL_Cache]
      exact hcache
    have h := build_found lib (setBaseURL lib c wh) wh m cm e hfind0 hhead hstage hcm hcache0
    rw [← webhookHandler_build lib c wh hkind, hno] at h
    refine ⟨_, h, ?_⟩
    simp [EditMessagesTextWithEventID, setBaseURL_Edits, setBaseURL_Cache, threadedBuildLine,
      setBaseURL_buildText]

/-- Witness of C6 (amended): the allowed failure `allowedFailBuild` in a fresh chat. -/
theorem allowed_failure_build_witness :
    allowedFailBuild.ObjectKind = "build" ∧ allowedFailBuild.BuildStatus = "failed" ∧
      allowedFailBuild.BuildAllowFailure = true ∧
      (webhookHandler htmlLib {} allowedFailBuild).isSome = true :=
  ⟨rfl, rfl, rfl, (allowed_failure_build htmlLib {} allowedFailBuild rfl rfl rfl).1 (by decide)⟩

/-- C6 (counterexample): a failed build that is allowed to fail, handled with the CI
fail toggle on, sends no message, neither in a fresh chat nor right after the push of
its commit (where the only sent message stays the push message). -/
theorem allowed_failure_build_sends_nothing :
    allowedFailBuild.BuildStatus = "failed" ∧ allowedFailBuild.BuildAllowFailure = true ∧
      (chatSettings {}).CI.Fail = true ∧
      (webhookHandler htmlLib {} allowedFailBuild).map (fun c => c.Sent) = some [] ∧
      (webhookHandler htmlLib afterOwnPush allowedFailBuild).map (fun c => c.Sent) =
        some afterOwnPush.Sent := by
  decide

/-! ## The issue and merge request cases -/

theorem webhookHandler_issue (lib : Lib) (c : Context) (wh : webhook)
    (hkind : wh.ObjectKind = "issue") :
    webhookHandler lib c wh = webhookHandlerIssue lib (setBaseURL lib c wh) {} wh := by
  simp [webhookHandler, hkind]

theorem webhookHandler_mr (lib : Lib) (c : Context) (wh : webhook)
    (hkind : wh.ObjectKind = "merge_request") :
    webhookHandler lib c wh = webhookHandlerMergeRequest lib (setBaseURL lib c wh) {} wh := by
  simp [webhookHandler, hkind]

/-- The `issue` case returns the context unchanged when the toggle of the action is
off. -/
theorem issue_suppressed (lib : Lib) (c : Context) (wh : webhook) (oa : attributes)
    (hoa : wh.ObjectAttributes = some oa)
    (ht : issuesToggle (chatSettings c) oa.Action = false) :
    webhookHandlerIssue lib c {} wh = some c := by
  unfold issuesToggle at ht
  simp only [webhookHandlerIssue, hoa, Option.bind_eq_bind, Option.some_bind]
  by_cases h1 : oa.Action = "open"
  · simp [h1] at ht
    simp [h1, ht]
  · by_cases h2 : oa.Action = "update"
    · simp [h2] at ht
      simp [h2, ht]
    · by_cases h3 : oa.Action = "close"
      · simp [h3] at ht
        simp [h3, ht]
      · by_cases h4 : oa.Action = "reopen"
        · simp [h4] at ht
          simp [h4, ht]
        · simp [h1, h2, h3, h4] at ht

/-- The conditions of the four early returns of the `issue` case fail when the toggle
of the action is on. -/
theorem issue_gate_open (cs : ChatSettings) (action : String)
    (ht : issuesToggle cs action = true) :
    ¬ (cs.Issues.Open = false ∧ action = "open") ∧ ¬ (cs.Issues.Update = false ∧ action = "update") ∧
      ¬ (cs.Issues.Close = false ∧ action = "close") ∧
      ¬ (cs.Issues.Reopen = false ∧ action = "reopen") := by
  unfold issuesToggle at ht
  refine ⟨?_, ?_, ?_, ?_⟩ <;> rintro ⟨hf, ha⟩ <;> subst ha <;> simp [hf] at ht

/-- The `issue` case on an `open` action whose toggle is on. -/
theorem issue_open (lib : Lib) (c : Context) (wh : webhook) (oa : attributes)
    (hoa : wh.ObjectAttributes = some oa)
    (ht : issuesToggle (chatSettings c) oa.Action = true) (hact : oa.Action = "open") :
    webhookHandlerIssue lib c {} wh = some (Send c (issueOpenMessage lib c wh oa)) := by
  obtain ⟨g1, g2, g3, g4⟩ := issue_gate_open _ _ ht
  simp only [webhookHandlerIssue, hoa, Option.bind_eq_bind, Option.some_bind, if_neg g1,
    if_neg g2, if_neg g3, if_neg g4, if_pos hact]
  simp [issueOpenMessage, OutgoingMessage.SetReplyAction]

/-- The `issue` case on a follow-up action whose toggle is on. -/
theorem issue_followup (lib : Lib) (c : Context) (wh : webhook) (oa : attributes)
    (hoa : wh.ObjectAttributes = some oa)
    (ht : issuesToggle (chatSettings c) oa.Action = true) (hact : oa.Action ≠ "open") :
    webhookHandlerIssue lib c {} wh =
      some (Send c (if issueMessageID c oa.ID > 0 then
          issueReplyMessage lib c wh oa (issueMessageID c oa.ID)
        else issueStandaloneMessage lib c wh oa)) := by
  obtain ⟨g1, g2, g3, g4⟩ := issue_gate_open _ _ ht
  simp only [webhookHandlerIssue, hoa, Option.bind_eq_bind, Option.some_bind, if_neg g1,
    if_neg g2, if_neg g3, if_neg g4, if_neg hact]
  split <;>
    simp [issueReplyMessage, issueStandaloneMessage, issueActionWord,
      OutgoingMessage.SetReplyAction]

/-- The `merge_request` case returns the context unchanged when the toggle of the
action is off. -/
theorem mr_suppressed (lib : Lib) (c : Context) (wh : webhook) (oa : attributes)
    (hoa : wh.ObjectAttributes = some oa)
    (ht : mrToggle (chatSettings c) oa.Action = false) :
    webhookHandlerMergeRequest lib c {} wh = some c := by
  unfold mrToggle at ht
  simp only [webhookHandlerMergeRequest, hoa, Option.bind_eq_bind, Option.some_bind]
  by_cases h1 : oa.Action = "open"
  · simp [h1] at ht
    simp [h1, ht]
  · by_cases h2 : oa.Action = "reopen"
    · simp [h2] at ht
      simp [h2, ht]
    · by_cases h3 : oa.Action = "close"
      · simp [h3] at ht
        simp [h3, ht]
      · by_cases h4 : oa.Action = "update"
        · simp [h4] at ht
          simp [h4, ht]
        · by_cases h5 : oa.Action = "merge"
          · simp [h5] at ht
            simp [h5, ht]
          · simp [h1, h2, h3, h4, h5] at ht

/-- The conditions of the four early returns of the `merge_request` case fail when the
toggle of the action is on. -/
theorem mr_gate_open (cs : ChatSettings) (action : String) (ht : mrToggle cs action = true) :
    ¬ (cs.MR.Open = false ∧ (action = "open" ∨ action = "reopen")) ∧
      ¬ (cs.MR.Close = false ∧ action = "close") ∧
      ¬ (cs.MR.Update = false ∧ action = "update") ∧
      ¬ (cs.MR.Merge = false ∧ action = "merge") := by
  unfold mrToggle at ht
  refine ⟨?_, ?_, ?_, ?_⟩
  · rintro ⟨hf, ha | ha⟩ <;> subst ha <;> simp [hf] at ht
  · rintro ⟨hf, ha⟩
    subst ha
    simp [hf] at ht
  · rintro ⟨hf, ha⟩
    subst ha
    simp [hf] at ht
  · rintro ⟨hf, ha⟩
    subst ha
    simp [hf] at ht

/-- The `merge_request` case on an `open` action whose toggle is on. -/
theorem mr_open (lib : Lib) (c : Context) (wh : webhook) (oa : attributes)
    (hoa : wh.ObjectAttributes = some oa)
    (ht : mrToggle (chatSettings c) oa.Action = true) (hact : oa.Action = "open") :
    webhookHandlerMergeRequest lib c {} wh = some (Send c (mrOpenMessage lib c wh oa)) := by
  obtain ⟨g1, g2, g3, g4⟩ := mr_gate_open _ _ ht
  simp only [webhookHandlerMergeRequest, hoa, Option.bind_eq_bind, Option.some_bind, if_neg g1,
    if_neg g2, if_neg g3, if_neg g4, if_pos hact]
  simp [mrOpenMessage]

/-- The `merge_request` case on a follow-up action whose toggle is on. -/
theorem mr_followup (lib : Lib) (c : Context) (wh : webhook) (oa : attributes)
    (hoa : wh.ObjectAttributes = some oa)
    (ht : mrToggle (chatSettings c) oa.Action = true) (hact : oa.Action ≠ "open") :
    webhookHandlerMergeRequest lib c {} wh =
      some (Send c (match FindMessageByEventID c ("mr_" ++ Itoa oa.ID) with
        | some r => mrReplyMessage lib c wh oa r.MsgID
        | none => mrStandaloneMessage lib c wh oa)) := by
  obtain ⟨g1, g2, g3, g4⟩ := mr_gate_open _ _ ht
  simp only [webhookHandlerMergeRequest, hoa, Option.bind_eq_bind, Option.some_bind, if_neg g1,
    if_neg g2, if_neg g3, if_neg g4, if_neg hact]
  cases FindMessageByEventID c ("mr_" ++ Itoa oa.ID) <;>
    simp [mrReplyMessage, mrStandaloneMessage]

theorem Find_Send_new (c : Context) (msg : OutgoingMessage) (key : String)
    (hnone : FindMessageByEventID c key = none) (hmem : key ∈ msg.EventID) :
    FindMessageByEventID (Send c msg) key =
      some { MsgID := (c.Messages.length : Int) + 1, EventID := msg.EventID } := by
  unfold FindMessageByEventID at hnone ⊢
  simp only [Send, List.find?_append, hnone, Option.none_or]
  simp [hmem]

/-- The `build` case panics on an empty stage, at `wh.BuildStage[0:1]`. -/
theorem build_empty_stage_panics (lib : Lib) (c : Context) (wh : webhook)
    (hkind : wh.ObjectKind = "build") (hstage : ¬ 1 ≤ len wh.BuildStage) :
    webhookHandler lib c wh = none := by
  rw [webhookHandler_build lib c wh hkind]
  have hs := slice_eq_none wh.BuildStage 0 1 hstage
  simp [webhookHandlerBuild, buildParts, hs]

/-- C5 (amended): for every chat whose stored settings record is `s` (the saved
record, or the defaults of a chat that never saved one), an issue event with object
attributes and an action among open, update, close, reopen, and a merge request event
with object attributes and an action among open, close, update, merge, is answered by
one sent message when the toggle of `s` for its category and action is on and by none
when it is off; a build event on which the slices and dereferences of the build case
are defined (non-empty stage; a commit object when the push record is found, else a
homepage with a `/` and a sha of 10 bytes), with status success, canceled or failed
without allow_failure, sends one new message when the CI toggle of `s` for its outcome
is on and none when it is off; and for a chat that has never saved settings every
Issues and MergeRequests toggle is on, CI success is off, CI fail and CI cancel are
on. -/
theorem settings_gate (lib : Lib) (c : Context) (wh : webhook) (s : ChatSettings)
    (hs : storedSettings c s) :
    (∀ oa, wh.ObjectKind = "issue" → wh.ObjectAttributes = some oa →
      (oa.Action = "open" ∨ oa.Action = "update" ∨ oa.Action = "close" ∨
        oa.Action = "reopen") →
      ∃ c', webhookHandler lib c wh = some c' ∧
        (issuesToggle s oa.Action = true → ∃ m, c'.Sent = c.Sent ++ [m]) ∧
        (issuesToggle s oa.Action = false → c'.Sent = c.Sent)) ∧
    (∀ oa, wh.ObjectKind = "merge_request" → wh.ObjectAttributes = some oa →
      (oa.Action = "open" ∨ oa.Action = "close" ∨ oa.Action = "update" ∨
        oa.Action = "merge") →
      ∃ c', webhookHandler lib c wh = some c' ∧
        (mrToggle s oa.Action = true → ∃ m, c'.Sent = c.Sent ++ [m]) ∧
        (mrToggle s oa.Action = false → c'.Sent = c.Sent)) ∧
    (wh.ObjectKind = "build" → buildDefined c wh →
      (wh.BuildStatus = "success" ∨ wh.BuildStatus = "canceled" ∨
        (wh.BuildStatus = "failed" ∧ wh.BuildAllowFailure = false)) →
      ∃ c', webhookHandler lib c wh = some c' ∧
        (ciToggle s wh.BuildStatus = true → ∃ m, c'.Sent = c.Sent ++ [m]) ∧
        (ciToggle s wh.BuildStatus = false → c'.Sent = c.Sent)) ∧
    (c.Settings = none →
      s.Issues = ⟨true, true, true, true⟩ ∧
      s.MR = ⟨true, true, true, true⟩ ∧
      s.CI.Success = false ∧ s.CI.Fail = true ∧ s.CI.Cancel = true) := by
  have hcs := chatSettings_of_stored c s hs
  subst hcs
  refine ⟨?_, ?_, ?_, ?_⟩
  · intro oa hkind hoa _
    rw [webhookHandler_issue lib c wh hkind]
    cases ht : issuesToggle (chatSettings c) oa.Action with
    | false =>
      have ht0 : issuesToggle (chatSettings (setBaseURL lib c wh)) oa.Action = false := by
        rw [setBaseURL_Settings]
        exact ht
      rw [issue_suppressed lib _ wh oa hoa ht0]
      exact ⟨_, rfl, fun h => absurd h (by simp), fun _ => setBaseURL_Sent lib c wh⟩
    | true =>
      have ht0 : issuesToggle (chatSettings (setBaseURL lib c wh)) oa.Action = true := by
        rw [setBaseURL_Settings]
        exact ht
      by_cases hact : oa.Action = "open"
      · rw [issue_open lib _ wh oa hoa ht0 hact]
        exact ⟨_, rfl, fun _ => ⟨_, Send_setBaseURL_Sent lib c wh _⟩,
          fun h => absurd h (by simp)⟩
      · rw [issue_followup lib _ wh oa hoa ht0 hact]
        exact ⟨_, rfl, fun _ => ⟨_, Send_setBaseURL_Sent lib c wh _⟩,
          fun h => absurd h (by simp)⟩
  · intro oa hkind hoa _
    rw [webhookHandler_mr lib c wh hkind]
    cases ht : mrToggle (chatSettings c) oa.Action with
    | false =>
      have ht0 : mrToggle (chatSettings (setBaseURL lib c wh)) oa.Action = false := by
        rw [setBaseURL_Settings]
        exact ht
      rw [mr_suppressed lib _ wh oa hoa ht0]
      exact ⟨_, rfl, fun h => absurd h (by simp), fun _ => setBaseURL_Sent lib c wh⟩
    | true =>
      have ht0 : mrToggle (chatSettings (setBaseURL lib c wh)) oa.Action = true := by
        rw [setBaseURL_Settings]
        exact ht
      by_cases hact : oa.Action = "open"
      · rw [mr_open lib _ wh oa hoa ht0 hact]
        exact ⟨_, rfl, fun _ => ⟨_, Send_setBaseURL_Sent lib c wh _⟩,
          fun h => absurd h (by simp)⟩
      · rw [mr_followup lib _ wh oa hoa ht0 hact]
        exact ⟨_, rfl, fun _ => ⟨_, Send_setBaseURL_Sent lib c wh _⟩,
          fun h => absurd h (by simp)⟩
  · intro hkind hdef hstatus
    rw [webhookHandler_build lib c wh hkind]
    obtain ⟨c', hc'⟩ := Option.isSome_iff_exists.mp
      (build_isSome lib _ wh ((setBaseURL_buildDefined lib c wh).mpr hdef))
    obtain ⟨m, hm⟩ := build_Sent lib _ c' wh hc'
    rw [setBaseURL_Settings, setBaseURL_Sent] at hm
    have hiff : buildNotify (chatSettings c) wh = ciToggle (chatSettings c) wh.BuildStatus := by
      unfold buildNotify ciToggle
      rcases hstatus with h | h | ⟨h, ha⟩ <;> simp [h, *]
    rw [hiff] at hm
    refine ⟨c', hc', ?_, ?_⟩
    · intro ht
      rw [ht] at hm
      exact ⟨m, by simpa using hm⟩
    · intro ht
      rw [ht] at hm
      simpa using hm
  · intro hnone
    simp [chatSettings, hnone, defaultChatSettings]

/-- Witness of C5 (amended): in a chat that saved settings with the CI fail toggle
off, the failed build `failedBuild` sends no message. -/
theorem settings_gate_witness :
    failedBuild.ObjectKind = "build" ∧ buildDefined mutedFailChat failedBuild ∧
      ∃ c', webhookHandler htmlLib mutedFailChat failedBuild = some c' ∧
        c'.Sent = mutedFailChat.Sent :=
  ⟨rfl, by decide,
    (fun h => ⟨h.choose, h.choose_spec.1, h.choose_spec.2.2 (by decide)⟩)
      ((settings_gate htmlLib mutedFailChat failedBuild _ (Or.inl rfl)).2.2.1 rfl (by decide)
        (Or.inr (Or.inr ⟨rfl, rfl⟩)))⟩

/-- C5 (counterexample): a failed build (allow_failure false) whose payload carries
an empty stage, handled with the CI fail toggle on, makes the handler panic at
`wh.BuildStage[0:1]`, whatever the library functions are: no message is sent although
the toggle of its outcome is on. -/
theorem empty_stage_build_sends_nothing :
    emptyStageBuild.ObjectKind = "build" ∧ emptyStageBuild.BuildStatus = "failed" ∧
      emptyStageBuild.BuildAllowFailure = false ∧
      ciToggle (chatSettings {}) emptyStageBuild.BuildStatus = true ∧
      webhookHandler htmlLib {} emptyStageBuild = none ∧
      ¬ ∃ lib c c', webhookHandler lib c emptyStageBuild = some c' := by
  refine ⟨rfl, rfl, rfl, by decide, by decide, ?_⟩
  rintro ⟨lib, c, c', h⟩
  rw [build_empty_stage_panics lib c emptyStageBuild rfl (by decide)] at h
  exact absurd h (by simp)

/-! ## The note case -/

theorem webhookHandler_note (lib : Lib) (c : Context) (wh : webhook)
    (hkind : wh.ObjectKind = "note") :
    webhookHandler lib c wh = webhookHandlerNote lib (setBaseURL lib c wh) {} wh := by
  simp [webhookHandler, hkind]

theorem mention_congr (lib : Lib) (c1 c2 : Context) (h : c1.ServiceCache = c2.ServiceCache) :
    mention lib c1 = mention lib c2 := by
  funext name email
  simp only [mention, h]

theorem noteOrigin_congr (lib : Lib) (c1 c2 : Context) (wh : webhook) (oa : attributes)
    (h : ∀ k, FindMessageByEventID c1 k = FindMessageByEventID c2 k) :
    noteOrigin lib c1 wh oa = noteOrigin lib c2 wh oa := by
  simp only [noteOrigin, h]

/-- A sent message without event keys is found under no key. -/
theorem Find_Send_untagged (c : Context) (msg : OutgoingMessage) (key : String)
    (h : msg.EventID = []) :
    FindMessageByEventID (Send c msg) key = FindMessageByEventID c key := by
  unfold FindMessageByEventID
  simp only [Send, List.find?_append]
  cases List.find? (fun r => decide (key ∈ r.EventID)) c.Messages <;> simp [h]

theorem noteMessage_untagged (lib : Lib) (c : Context) (wh : webhook) (oa : attributes)
    (r : String × Option Message × String) : (noteMessage lib c wh oa r).EventID = [] := by
  unfold noteMessage
  split <;> rfl

/-- The `note` case drops the event when a record exists under its dedup key. -/
theorem note_drop (lib : Lib) (c : Context) (wh : webhook) (oa : attributes)
    (hoa : wh.ObjectAttributes = some oa)
    (h : (FindMessageByEventID c (noteKey oa)).isSome = true) :
    webhookHandlerNote lib c {} wh = some c := by
  obtain ⟨m, hm⟩ := Option.isSome_iff_exists.mp h
  simp [webhookHandlerNote, hoa, hm]

/-- The `note` case sends the note message when no record exists under its dedup
key. -/
theorem note_send (lib : Lib) (c : Context) (wh : webhook) (oa : attributes)
    (hoa : wh.ObjectAttributes = some oa) (h : FindMessageByEventID c (noteKey oa) = none) :
    webhookHandlerNote lib c {} wh =
      (noteOrigin lib c wh oa).map (fun r => Send c (noteMessage lib c wh oa r)) := by
  simp only [webhookHandlerNote, hoa, h, Option.bind_eq_bind, Option.some_bind]
  cases noteOrigin lib c wh oa with
  | none => rfl
  | some r =>
    obtain ⟨t, o, wp⟩ := r
    cases o <;> simp [noteMessage]

/-- C3 (amended): for every note event with object attributes whose first delivery is
handled: when a record exists under its dedup key, both deliveries send nothing; when
none exists, the first delivery sends a message that carries no event key, the store
still has no record under the dedup key, and the second delivery of the same event
sends the same message again, so two notifications are produced. -/
theorem note_delivered_twice (lib : Lib) (c c1 : Context) (wh : webhook) (oa : attributes)
    (hkind : wh.ObjectKind = "note") (hoa : wh.ObjectAttributes = some oa)
    (h1 : webhookHandler lib c wh = some c1) :
    ((FindMessageByEventID c (noteKey oa)).isSome = true →
      c1.Sent = c.Sent ∧ ∃ c2, webhookHandler lib c1 wh = some c2 ∧ c2.Sent = c.Sent) ∧
    (FindMessageByEventID c (noteKey oa) = none →
      ∃ m c2, c1.Sent = c.Sent ++ [m] ∧ m.EventID = [] ∧
        FindMessageByEventID c1 (noteKey oa) = none ∧
        webhookHandler lib c1 wh = some c2 ∧ c2.Sent = c.Sent ++ [m, m]) := by
  rw [webhookHandler_note lib c wh hkind] at h1
  constructor
  · intro hsome
    have hs0 : (FindMessageByEventID (setBaseURL lib c wh) (noteKey oa)).isSome = true := by
      rw [setBaseURL_Find]
      exact hsome
    rw [note_drop lib _ wh oa hoa hs0] at h1
    have hc1 : c1 = setBaseURL lib c wh := (Option.some.inj h1).symm
    subst hc1
    have hs1 : (FindMessageByEventID (setBaseURL lib (setBaseURL lib c wh) wh)
        (noteKey oa)).isSome = true := by
      rw [setBaseURL_Find]
      exact hs0
    refine ⟨setBaseURL_Sent lib c wh, setBaseURL lib (setBaseURL lib c wh) wh, ?_, ?_⟩
    · rw [webhookHandler_note lib _ wh hkind, note_drop lib _ wh oa hoa hs1]
    · rw [setBaseURL_Sent, setBaseURL_Sent]
  · intro hnone
    have hn0 : FindMessageByEventID (setBaseURL lib c wh) (noteKey oa) = none := by
      rw [setBaseURL_Find]
      exact hnone
    rw [note_send lib _ wh oa hoa hn0] at h1
    cases hr : noteOrigin lib (setBaseURL lib c wh) wh oa with
    | none => simp [hr] at h1
    | some r =>
      rw [hr] at h1
      have hc1 : c1 = Send (setBaseURL lib c wh) (noteMessage lib (setBaseURL lib c wh) wh oa r) :=
        (Option.some.inj h1).symm
      have hmu := noteMessage_untagged lib (setBaseURL lib c wh) wh oa r
      have hfind : ∀ k, FindMessageByEventID (setBaseURL lib c1 wh) k =
          FindMessageByEventID (setBaseURL lib c wh) k := by
        intro k
        rw [setBaseURL_Find, hc1, Find_Send_untagged _ _ _ hmu]
      have hn1 : FindMessageByEventID (setBaseURL lib c1 wh) (noteKey oa) = none := by
        rw [hfind]
        exact hn0
      have hr1 : noteOrigin lib (setBaseURL lib c1 wh) wh oa = some r := by
        rw [noteOrigin_congr lib _ _ wh oa hfind]
        exact hr
      have hmen : mention lib (setBaseURL lib c1 wh) = mention lib (setBaseURL lib c wh) := by
        rw [setBaseURL_mention, hc1]
        exact mention_congr lib _ _ rfl
      have hmsg : noteMessage lib (setBaseURL lib c1 wh) wh oa r =
          noteMessage lib (setBaseURL lib c wh) wh oa r := by
        simp only [noteMessage, hmen]
      refine ⟨noteMessage lib (setBaseURL lib c wh) wh oa r,
        Send (setBaseURL lib c1 wh) (noteMessage lib (setBaseURL lib c1 wh) wh oa r),
        ?_, hmu, ?_, ?_, ?_⟩
      · rw [hc1]
        exact Send_setBaseURL_Sent lib c wh _
      · rw [← setBaseURL_Find lib c1 wh]
        exact hn1
      · rw [webhookHandler_note lib c1 wh hkind, note_send lib _ wh oa hoa hn1, hr1]
        rfl
      · rw [Send_setBaseURL_Sent, hmsg, hc1, Send_setBaseURL_Sent]
        simp

/-- Witness of C3 (amended): the comment `issueNote` delivered to a fresh chat. -/
theorem note_delivered_twice_witness :
    issueNote.ObjectKind = "note" ∧
      ∃ c1, webhookHandler htmlLib {} issueNote = some c1 ∧
        ∃ m c2, c1.Sent = ({} : Context).Sent ++ [m] ∧ m.EventID = [] ∧
          FindMessageByEventID c1 (noteKey
            { ID := 31, ProjectID := 4, Note := "looks good", NoteableType := "Issue"
              URL := "https://git.x.org/ann/repo/issues/2#note_31" }) = none ∧
          webhookHandler htmlLib c1 issueNote = some c2 ∧
          c2.Sent = ({} : Context).Sent ++ [m, m] :=
  ⟨rfl, (webhookHandler htmlLib {} issueNote).get (by decide), by simp,
    (note_delivered_twice htmlLib {} _ issueNote _ rfl rfl (by simp)).2 (by decide)⟩

/-- C3 (counterexample): the same note event (project 4, note 31) handled twice in a
row in a fresh chat produces two notifications: the first delivery sends one message
and the second delivery sends one more. -/
theorem note_redelivery_sends_again :
    (webhookHandler htmlLib {} issueNote).map (fun c => c.Sent.length) = some 1 ∧
      ((webhookHandler htmlLib {} issueNote).bind
          (fun c1 => webhookHandler htmlLib c1 issueNote)).map (fun c => c.Sent.length) =
        some 2 := by
  decide

/-! ## Stored records over runs of events -/

theorem setBaseURL_Messages (lib : Lib) (c : Context) (wh : webhook) :
    (setBaseURL lib c wh).Messages = c.Messages := by
  obtain ⟨u, hu⟩ := setBaseURL_eq lib c wh
  rw [hu]

theorem setBaseURL_issueMessageID (lib : Lib) (c : Context) (wh : webhook) (id : Int) :
    issueMessageID (setBaseURL lib c wh) id = issueMessageID c id := by
  simp only [issueMessageID, setBaseURL_Find]

theorem grows_refl (c : Context) : grows c c :=
  ⟨rfl, [], by simp, by simp⟩

theorem grows_trans (a b c : Context) (h1 : grows a b) (h2 : grows b c) : grows a c := by
  obtain ⟨hs1, e1, hm1, hp1⟩ := h1
  obtain ⟨hs2, e2, hm2, hp2⟩ := h2
  refine ⟨hs2.trans hs1, e1 ++ e2, ?_, ?_⟩
  · rw [hm2, hm1, List.append_assoc]
  · intro r hr
    rcases List.mem_append.mp hr with h | h
    · exact hp1 r h
    · exact hp2 r h

theorem grows_Send (c : Context) (msg : OutgoingMessage) : grows c (Send c msg) := by
  refine ⟨rfl, [{ MsgID := (c.Messages.length : Int) + 1, EventID := msg.EventID }], rfl, ?_⟩
  intro r hr
  rw [List.mem_singleton] at hr
  subst hr
  show (0 : Int) < (c.Messages.length : Int) + 1
  omega

theorem grows_SetCache (c : Context) (key val : String) : grows c (SetCache c key val) :=
  ⟨rfl, [], by simp [SetCache], by simp⟩

theorem grows_Edit (c : Context) (key text : String) :
    grows c (EditMessagesTextWithEventID c key text) :=
  ⟨rfl, [], by simp [EditMessagesTextWithEventID], by simp⟩

theorem grows_setBaseURL (lib : Lib) (c : Context) (wh : webhook) :
    grows c (setBaseURL lib c wh) := by
  obtain ⟨u, hu⟩ := setBaseURL_eq lib c wh
  rw [hu]
  exact ⟨rfl, [], by simp, by simp⟩

theorem issue_grows (lib : Lib) (c c' : Context) (wh : webhook)
    (h : webhookHandlerIssue lib c {} wh = some c') : grows c c' := by
  cases hoa : wh.ObjectAttributes with
  | none => simp [webhookHandlerIssue, hoa] at h
  | some oa =>
    cases ht : issuesToggle (chatSettings c) oa.Action with
    | false =>
      rw [issue_suppressed lib c wh oa hoa ht] at h
      rw [← Option.some.inj h]
      exact grows_refl c
    | true =>
      by_cases hact : oa.Action = "open"
      · rw [issue_open lib c wh oa hoa ht hact] at h
        rw [← Option.some.inj h]
        exact grows_Send c _
      · rw [issue_followup lib c wh oa hoa ht hact] at h
        rw [← Option.some.inj h]
        exact grows_Send c _

theorem mr_grows (lib : Lib) (c c' : Context) (wh : webhook)
    (h : webhookHandlerMergeRequest lib c {} wh = some c') : grows c c' := by
  cases hoa : wh.ObjectAttributes with
  | none => simp [webhookHandlerMergeRequest, hoa] at h
  | some oa =>
    cases ht : mrToggle (chatSettings c) oa.Action with
    | false =>
      rw [mr_suppressed lib c wh oa hoa ht] at h
      rw [← Option.some.inj h]
      exact grows_refl c
    | true =>
      by_cases hact : oa.Action = "open"
      · rw [mr_open lib c wh oa hoa ht hact] at h
        rw [← Option.some.inj h]
        exact grows_Send c _
      · rw [mr_followup lib c wh oa hoa ht hact] at h
        rw [← Option.some.inj h]
        exact grows_Send c _

theorem note_grows (lib : Lib) (c c' : Context) (wh : webhook)
    (h : webhookHandlerNote lib c {} wh = some c') : grows c c' := by
  cases hoa : wh.ObjectAttributes with
  | none => simp [webhookHandlerNote, hoa] at h
  | some oa =>
    cases hf : FindMessageByEventID c (noteKey oa) with
    | some m =>
      rw [note_drop lib c wh oa hoa (by simp [hf])] at h
      rw [← Option.some.inj h]
      exact grows_refl c
    | none =>
      rw [note_send lib c wh oa hoa hf] at h
      cases hr : noteOrigin lib c wh oa with
      | none => simp [hr] at h
      | some r =>
        rw [hr] at h
        rw [← Option.some.inj h]
        exact grows_Send c _

theorem buildEdit_grows (c c1 : Context) (wh : webhook) (commitMsg : Option Message)
    (text : String) (h : buildEdit c wh commitMsg text = some c1) : grows c c1 := by
  unfold buildEdit at h
  split at h
  · simp only [Option.bind_eq_bind, Option.bind_eq_some] at h
    obtain ⟨cm, -, h⟩ := h
    split at h
    · simp only [Option.bind_eq_some, Option.pure_def, Option.some.injEq] at h
      obtain ⟨e, -, h⟩ := h
      subst h
      exact grows_Edit c _ _
    · simp only [Option.pure_def, Option.some.injEq] at h
      subst h
      exact grows_refl c
  · simp only [Option.pure_def, Option.some.injEq] at h
    subst h
    exact grows_refl c

theorem build_grows (lib : Lib) (c c' : Context) (wh : webhook)
    (h : webhookHandlerBuild lib c {} wh = some c') : grows c c' := by
  unfold webhookHandlerBuild at h
  simp only [Option.bind_eq_bind, Option.bind_eq_some] at h
  obtain ⟨⟨commit, build, msg⟩, -, c1, hc1, h⟩ := h
  have hg := buildEdit_grows _ _ _ _ _ hc1
  split at h
  · simp only [Option.pure_def, Option.some.injEq] at h
    subst h
    exact grows_trans _ _ _ hg (grows_Send c1 _)
  · simp only [Option.pure_def, Option.some.injEq] at h
    subst h
    exact hg

theorem tag_push_grows (lib : Lib) (c c' : Context) (wh : webhook)
    (h : webhookHandlerTagPush lib c {} wh = some c') : grows c c' := by
  unfold webhookHandlerTagPush at h
  simp only [Option.bind_eq_bind, Option.bind_eq_some, Option.pure_def,
    Option.some.injEq] at h
  obtain ⟨a, -, b, -, h⟩ := h
  subst h
  exact grows_Send c _

theorem push_grows (lib : Lib) (c c' : Context) (wh : webhook)
    (h : webhookHandlerPush lib c {} wh = some c') : grows c c' := by
  by_cases hne : wh.Commits = []
  · simp only [webhookHandlerPush, index_Split_last, hne, List.length_nil, gt_iff_lt,
      Nat.lt_irrefl, if_false, Nat.zero_ne_one, Option.bind_eq_bind, Option.some_bind,
      Option.pure_def, List.foldl_nil, Nat.not_lt_zero] at h
    split at h
    · rw [← Option.some.inj h]
      exact grows_Send c _
    · rw [← Option.some.inj h]
      exact grows_Send c _
  · rw [push_of_some lib c c' wh hne h]
    exact grows_trans _ _ _ (grows_SetCache c _ _) (grows_Send _ _)

/-- Handling a webhook event keeps the saved settings and only appends records with
positive message ids to the store. -/
theorem webhookHandler_grows (lib : Lib) (c c' : Context) (wh : webhook)
    (h : webhookHandler lib c wh = some c') : grows c c' := by
  have h0 := grows_setBaseURL lib c wh
  unfold webhookHandler at h
  simp only at h
  split at h
  · exact grows_trans _ _ _ h0 (push_grows lib _ c' wh h)
  · split at h
    · exact grows_trans _ _ _ h0 (tag_push_grows lib _ c' wh h)
    · split at h
      · exact grows_trans _ _ _ h0 (issue_grows lib _ c' wh h)
      · split at h
        · exact grows_trans _ _ _ h0 (note_grows lib _ c' wh h)
        · split at h
          · exact grows_trans _ _ _ h0 (mr_grows lib _ c' wh h)
          · split at h
            · exact grows_trans _ _ _ h0 (build_grows lib _ c' wh h)
            · rw [← Option.some.inj h]
              exact h0

theorem runEvents_grows (lib : Lib) (evs : List webhook) (c c' : Context)
    (h : runEvents lib c evs = some c') : grows c c' := by
  induction evs generalizing c with
  | nil =>
    simp only [runEvents, Option.some.injEq] at h
    subst h
    exact grows_refl c
  | cons wh rest ih =>
    simp only [runEvents, Option.bind_eq_some] at h
    obtain ⟨c1, h1, h2⟩ := h
    exact grows_trans _ _ _ (webhookHandler_grows lib c c1 wh h1) (ih c1 h2)

theorem grows_positiveIDs (c c' : Context) (h : grows c c') (hp : positiveIDs c) :
    positiveIDs c' := by
  obtain ⟨-, extra, hm, hpos⟩ := h
  intro r hr
  rw [hm] at hr
  rcases List.mem_append.mp hr with h | h
  · exact hp r h
  · exact hpos r h

/-- The stores reached from an empty store by handling webhook events hold records
with positive message ids only. -/
theorem runEvents_positiveIDs (lib : Lib) (evs : List webhook) (c c' : Context)
    (hempty : c.Messages = []) (h : runEvents lib c evs = some c') : positiveIDs c' := by
  apply grows_positiveIDs c c' (runEvents_grows lib evs c c' h)
  intro r hr
  rw [hempty] at hr
  simp at hr

theorem grows_Find (c c' : Context) (key : String) (r : Message) (h : grows c c')
    (hf : FindMessageByEventID c key = some r) : FindMessageByEventID c' key = some r := by
  obtain ⟨-, extra, hm, -⟩ := h
  unfold FindMessageByEventID at hf ⊢
  rw [hm, List.find?_append, hf]
  rfl

theorem grows_storedSettings (c c' : Context) (s : ChatSettings) (h : grows c c')
    (hs : storedSettings c s) : storedSettings c' s := by
  unfold storedSettings at hs ⊢
  rw [h.1]
  exact hs

theorem Find_in_store (c : Context) (key : String) (r : Message)
    (h : FindMessageByEventID c key = some r) : r ∈ c.Messages :=
  List.mem_of_find?_eq_some h

/-- After a message tagged with a key is sent, the store holds a record under that
key: the older record when there was one, else the record of the message. -/
theorem Find_Send_tagged (c : Context) (msg : OutgoingMessage) (key : String)
    (hmem : key ∈ msg.EventID) :
    ∃ r, FindMessageByEventID (Send c msg) key = some r ∧
      (FindMessageByEventID c key = none → (Send c msg).Messages = c.Messages ++ [r]) := by
  cases hf : FindMessageByEventID c key with
  | some r =>
    exact ⟨r, grows_Find c _ key r (grows_Send c msg) hf, fun h => absurd h (by simp)⟩
  | none =>
    exact ⟨_, Find_Send_new c msg key hf hmem, fun _ => rfl⟩

/-! ## Threading of issue and merge request events -/

/-- The `issue` case on an event whose toggle is on: tagged when the action is
`open`, else a reply to a stored record with a positive message id, else standalone. -/
theorem issue_threading (lib : Lib) (c : Context) (wh : webhook) (oa : attributes)
    (s : ChatSettings) (hkind : wh.ObjectKind = "issue")
    (hoa : wh.ObjectAttributes = some oa) (hs : storedSettings c s)
    (ht : issuesToggle s oa.Action = true) :
    ∃ c' m, webhookHandler lib c wh = some c' ∧ c'.Sent = c.Sent ++ [m] ∧
      (oa.Action = "open" → m.EventID = ["issue_" ++ Itoa oa.ID]) ∧
      (oa.Action ≠ "open" →
        ∀ r, FindMessageByEventID c ("issue_" ++ Itoa oa.ID) = some r → 0 < r.MsgID →
          m.ReplyToMsgID = r.MsgID ∧ m.WebPreview = false) ∧
      (oa.Action ≠ "open" → FindMessageByEventID c ("issue_" ++ Itoa oa.ID) = none →
        m.ReplyToMsgID = 0 ∧ m.WebPreview = true ∧
          m.Text = lib.URL (issueActionWord oa.Action)
              (lib.WebPreview "Issue" oa.Title
                (wh.User.Username ++ " / " ++ wh.Repository.Name) oa.URL "") ++
            " by " ++ mention lib c wh.User.Username "") := by
  have hcs := chatSettings_of_stored c s hs
  subst hcs
  have ht0 : issuesToggle (chatSettings (setBaseURL lib c wh)) oa.Action = true := by
    rw [setBaseURL_Settings]
    exact ht
  rw [webhookHandler_issue lib c wh hkind]
  by_cases hact : oa.Action = "open"
  · rw [issue_open lib _ wh oa hoa ht0 hact]
    exact ⟨_, _, rfl, Send_setBaseURL_Sent lib c wh _, fun _ => rfl,
      fun h => absurd hact h, fun h => absurd hact h⟩
  · rw [issue_followup lib _ wh oa hoa ht0 hact, setBaseURL_issueMessageID]
    refine ⟨_, _, rfl, Send_setBaseURL_Sent lib c wh _, fun h => absurd h hact, ?_, ?_⟩
    · intro _ r hr hpos
      have hid : issueMessageID c oa.ID = r.MsgID := by simp only [issueMessageID, hr]
      rw [hid, if_pos hpos]
      exact ⟨rfl, rfl⟩
    · intro _ hnone
      have hid : ¬ issueMessageID c oa.ID > 0 := by simp [issueMessageID, hnone]
      rw [if_neg hid]
      refine ⟨rfl, rfl, ?_⟩
      simp only [issueStandaloneMessage, setBaseURL_mention]

/-- The `merge_request` case on an event whose toggle is on: tagged when the action is
`open`, else a reply to the stored record, else standalone. -/
theorem mr_threading (lib : Lib) (c : Context) (wh : webhook) (oa : attributes)
    (s : ChatSettings) (hkind : wh.ObjectKind = "merge_request")
    (hoa : wh.ObjectAttributes = some oa) (hs : storedSettings c s)
    (ht : mrToggle s oa.Action = true) :
    ∃ c' m, webhookHandler lib c wh = some c' ∧ c'.Sent = c.Sent ++ [m] ∧
      (oa.Action = "open" → m.EventID = ["mr_" ++ Itoa oa.ID]) ∧
      (oa.Action ≠ "open" →
        ∀ r, FindMessageByEventID c ("mr_" ++ Itoa oa.ID) = some r →
          m.ReplyToMsgID = r.MsgID ∧ m.WebPreview = false) ∧
      (oa.Action ≠ "open" → FindMessageByEventID c ("mr_" ++ Itoa oa.ID) = none →
        m.ReplyToMsgID = 0 ∧ m.WebPreview = true ∧
          m.Text = lib.URL "Merge request"
              (lib.WebPreview "Merge Request" oa.Title oa.Description oa.URL "") ++
            " " ++ oa.State ++ " by " ++ mention lib c wh.User.Username wh.UserEmail) := by
  have hcs := chatSettings_of_stored c s hs
  subst hcs
  have ht0 : mrToggle (chatSettings (setBaseURL lib c wh)) oa.Action = true := by
    rw [setBaseURL_Settings]
    exact ht
  rw [webhookHandler_mr lib c wh hkind]
  by_cases hact : oa.Action = "open"
  · rw [mr_open lib _ wh oa hoa ht0 hact]
    exact ⟨_, _, rfl, Send_setBaseURL_Sent lib c wh _, fun _ => rfl,
      fun h => absurd hact h, fun h => absurd hact h⟩
  · rw [mr_followup lib _ wh oa hoa ht0 hact, setBaseURL_Find]
    refine ⟨_, _, rfl, Send_setBaseURL_Sent lib c wh _, fun h => absurd h hact, ?_, ?_⟩
    · intro _ r hr
      rw [hr]
      exact ⟨rfl, rfl⟩
    · intro _ hnone
      rw [hnone]
      refine ⟨rfl, rfl, ?_⟩
      simp only [mrStandaloneMessage, setBaseURL_mention]

/-- After an `open` issue event, every follow-up event of the same issue handled
later, whatever webhook events were handled in between, is a reply to the message
stored under the key of the issue. -/
theorem issue_after_open (lib : Lib) (c : Context) (wh : webhook) (oa : attributes)
    (s : ChatSettings) (hkind : wh.ObjectKind = "issue")
    (hoa : wh.ObjectAttributes = some oa) (hs : storedSettings c s) (hids : positiveIDs c)
    (hopen : oa.Action = "open") (ht : issuesToggle s oa.Action = true) :
    ∃ c1 r, webhookHandler lib c wh = some c1 ∧
      FindMessageByEventID c1 ("issue_" ++ Itoa oa.ID) = some r ∧
      (FindMessageByEventID c ("issue_" ++ Itoa oa.ID) = none →
        c1.Messages = c.Messages ++ [r]) ∧
      ∀ evs c2 wh2 oa2, runEvents lib c1 evs = some c2 → wh2.ObjectKind = "issue" →
        wh2.ObjectAttributes = some oa2 → oa2.ID = oa.ID → oa2.Action ≠ "open" →
        issuesToggle s oa2.Action = true →
        ∃ c3 m2, webhookHandler lib c2 wh2 = some c3 ∧ c3.Sent = c2.Sent ++ [m2] ∧
          m2.ReplyToMsgID = r.MsgID ∧ m2.WebPreview = false := by
  have hcs := chatSettings_of_stored c s hs
  have ht0 : issuesToggle (chatSettings (setBaseURL lib c wh)) oa.Action = true := by
    rw [setBaseURL_Settings, hcs]
    exact ht
  have h1 : webhookHandler lib c wh =
      some (Send (setBaseURL lib c wh) (issueOpenMessage lib (setBaseURL lib c wh) wh oa)) := by
    rw [webhookHandler_issue lib c wh hkind, issue_open lib _ wh oa hoa ht0 hopen]
  obtain ⟨r, hr, hnew⟩ := Find_Send_tagged (setBaseURL lib c wh)
    (issueOpenMessage lib (setBaseURL lib c wh) wh oa) ("issue_" ++ Itoa oa.ID)
    (by simp [issueOpenMessage])
  have hg1 := webhookHandler_grows lib c _ wh h1
  have hpos : 0 < r.MsgID := grows_positiveIDs c _ hg1 hids r (Find_in_store _ _ r hr)
  refine ⟨_, r, h1, hr, ?_, ?_⟩
  · intro hnone
    have := hnew (by rw [setBaseURL_Find]; exact hnone)
    rw [this, setBaseURL_Messages]
  · intro evs c2 wh2 oa2 hrun hkind2 hoa2 hid hfollow ht2
    have hg2 := runEvents_grows lib evs _ c2 hrun
    have hs2 := grows_storedSettings c c2 s (grows_trans _ _ _ hg1 hg2) hs
    have hr2 := grows_Find _ c2 _ r hg2 hr
    obtain ⟨c3, m2, h3, hsent, -, hreply, -⟩ :=
      issue_threading lib c2 wh2 oa2 s hkind2 hoa2 hs2 ht2
    rw [hid] at hreply
    exact ⟨c3, m2, h3, hsent, hreply hfollow r hr2 hpos⟩

/-- After an `open` merge request event, every follow-up event of the same merge
request handled later, whatever webhook events were handled in between, is a reply to
the message stored under the key of the merge request. -/
theorem mr_after_open (lib : Lib) (c : Context) (wh : webhook) (oa : attributes)
    (s : ChatSettings) (hkind : wh.ObjectKind = "merge_request")
    (hoa : wh.ObjectAttributes = some oa) (hs : storedSettings c s)
    (hopen : oa.Action = "open") (ht : mrToggle s oa.Action = true) :
    ∃ c1 r, webhookHandler lib c wh = some c1 ∧
      FindMessageByEventID c1 ("mr_" ++ Itoa oa.ID) = some r ∧
      (FindMessageByEventID c ("mr_" ++ Itoa oa.ID) = none →
        c1.Messages = c.Messages ++ [r]) ∧
      ∀ evs c2 wh2 oa2, runEvents lib c1 evs = some c2 → wh2.ObjectKind = "merge_request" →
        wh2.ObjectAttributes = some oa2 → oa2.ID = oa.ID → oa2.Action ≠ "open" →
        mrToggle s oa2.Action = true →
        ∃ c3 m2, webhookHandler lib c2 wh2 = some c3 ∧ c3.Sent = c2.Sent ++ [m2] ∧
          m2.ReplyToMsgID = r.MsgID ∧ m2.WebPreview = false := by
  have hcs := chatSettings_of_stored c s hs
  have ht0 : mrToggle (chatSettings (setBaseURL lib c wh)) oa.Action = true := by
    rw [setBaseURL_Settings, hcs]
    exact ht
  have h1 : webhookHandler lib c wh =
      some (Send (setBaseURL lib c wh) (mrOpenMessage lib (setBaseURL lib c wh) wh oa)) := by
    rw [webhookHandler_mr lib c wh hkind, mr_open lib _ wh oa hoa ht0 hopen]
  obtain ⟨r, hr, hnew⟩ := Find_Send_tagged (setBaseURL lib c wh)
    (mrOpenMessage lib (setBaseURL lib c wh) wh oa) ("mr_" ++ Itoa oa.ID)
    (by simp [mrOpenMessage])
  have hg1 := webhookHandler_grows lib c _ wh h1
  refine ⟨_, r, h1, hr, ?_, ?_⟩
  · intro hnone
    have := hnew (by rw [setBaseURL_Find]; exact hnone)
    rw [this, setBaseURL_Messages]
  · intro evs c2 wh2 oa2 hrun hkind2 hoa2 hid hfollow ht2
    have hg2 := runEvents_grows lib evs _ c2 hrun
    have hs2 := grows_storedSettings c c2 s (grows_trans _ _ _ hg1 hg2) hs
    have hr2 := grows_Find _ c2 _ r hg2 hr
    obtain ⟨c3, m2, h3, hsent, -, hreply, -⟩ :=
      mr_threading lib c2 wh2 oa2 s hkind2 hoa2 hs2 ht2
    rw [hid] at hreply
    exact ⟨c3, m2, h3, hsent, hreply hfollow r hr2⟩

/-- C4: for every issue or merge request event with object attributes that is not
suppressed by the stored settings: if its action is `open`, the sent message is
tagged with the event key `issue_<id>` (resp. `mr_<id>`) built from the id of the
object; if its action is not `open`, the sent message is a reply to the stored
message id when a record exists under that key, and a standalone message (no reply-to
id, with a link-preview summary) when no record exists.  In particular, after an
`open` event a non-open event for the same id, handled after any webhook events in
between, replies to the message stored under the key, which is the message the open
event created when no record existed under the key before it.  For issues the chat
is one whose stored records carry positive message ids, as the transport assigns:
every store reached from an empty one by handling webhook events is such a store. -/
theorem issue_mr_threading (lib : Lib) (c : Context) (wh : webhook) (oa : attributes)
    (s : ChatSettings) (hoa : wh.ObjectAttributes = some oa) (hs : storedSettings c s) :
    (wh.ObjectKind = "issue" → positiveIDs c → issuesToggle s oa.Action = true →
      ∃ c' m, webhookHandler lib c wh = some c' ∧ c'.Sent = c.Sent ++ [m] ∧
        (oa.Action = "open" → m.EventID = ["issue_" ++ Itoa oa.ID]) ∧
        (oa.Action ≠ "open" →
          ∀ r, FindMessageByEventID c ("issue_" ++ Itoa oa.ID) = some r →
            m.ReplyToMsgID = r.MsgID ∧ m.WebPreview = false) ∧
        (oa.Action ≠ "open" → FindMessageByEventID c ("issue_" ++ Itoa oa.ID) = none →
          m.ReplyToMsgID = 0 ∧ m.WebPreview = true ∧
            m.Text = lib.URL (issueActionWord oa.Action)
                (lib.WebPreview "Issue" oa.Title
                  (wh.User.Username ++ " / " ++ wh.Repository.Name) oa.URL "") ++
              " by " ++ mention lib c wh.User.Username "")) ∧
    (wh.ObjectKind = "merge_request" → mrToggle s oa.Action = true →
      ∃ c' m, webhookHandler lib c wh = some c' ∧ c'.Sent = c.Sent ++ [m] ∧
        (oa.Action = "open" → m.EventID = ["mr_" ++ Itoa oa.ID]) ∧
        (oa.Action ≠ "open" →
          ∀ r, FindMessageByEventID c ("mr_" ++ Itoa oa.ID) = some r →
            m.ReplyToMsgID = r.MsgID ∧ m.WebPreview = false) ∧
        (oa.Action ≠ "open" → FindMessageByEventID c ("mr_" ++ Itoa oa.ID) = none →
          m.ReplyToMsgID = 0 ∧ m.WebPreview = true ∧
            m.Text = lib.URL "Merge request"
                (lib.WebPreview "Merge Request" oa.Title oa.Description oa.URL "") ++
              " " ++ oa.State ++ " by " ++ mention lib c wh.User.Username wh.UserEmail)) ∧
    (wh.ObjectKind = "issue" → positiveIDs c → oa.Action = "open" →
      issuesToggle s oa.Action = true →
      ∃ c1 r, webhookHandler lib c wh = some c1 ∧
        FindMessageByEventID c1 ("issue_" ++ Itoa oa.ID) = some r ∧
        (FindMessageByEventID c ("issue_" ++ Itoa oa.ID) = none →
          c1.Messages = c.Messages ++ [r]) ∧
        ∀ evs c2 wh2 oa2, runEvents lib c1 evs = some c2 → wh2.ObjectKind = "issue" →
          wh2.ObjectAttributes = some oa2 → oa2.ID = oa.ID → oa2.Action ≠ "open" →
          issuesToggle s oa2.Action = true →
          ∃ c3 m2, webhookHandler lib c2 wh2 = some c3 ∧ c3.Sent = c2.Sent ++ [m2] ∧
            m2.ReplyToMsgID = r.MsgID ∧ m2.WebPreview = false) ∧
    (wh.ObjectKind = "merge_request" → oa.Action = "open" → mrToggle s oa.Action = true →
      ∃ c1 r, webhookHandler lib c wh = some c1 ∧
        FindMessageByEventID c1 ("mr_" ++ Itoa oa.ID) = some r ∧
        (FindMessageByEventID c ("mr_" ++ Itoa oa.ID) = none →
          c1.Messages = c.Messages ++ [r]) ∧
        ∀ evs c2 wh2 oa2, runEvents lib c1 evs = some c2 →
          wh2.ObjectKind = "merge_request" → wh2.ObjectAttributes = some oa2 →
          oa2.ID = oa.ID → oa2.Action ≠ "open" → mrToggle s oa2.Action = true →
          ∃ c3 m2, webhookHandler lib c2 wh2 = some c3 ∧ c3.Sent = c2.Sent ++ [m2] ∧
            m2.ReplyToMsgID = r.MsgID ∧ m2.WebPreview = false) ∧
    (∀ c0 evs, c0.Messages = [] → runEvents lib c0 evs = some c → positiveIDs c) := by
  refine ⟨?_, ?_, ?_, ?_, ?_⟩
  · intro hkind hids ht
    obtain ⟨c', m, h, hsent, hopen, hreply, halone⟩ :=
      issue_threading lib c wh oa s hkind hoa hs ht
    refine ⟨c', m, h, hsent, hopen, ?_, halone⟩
    intro hact r hr
    exact hreply hact r hr (hids r (Find_in_store c _ r hr))
  · intro hkind ht
    exact mr_threading lib c wh oa s hkind hoa hs ht
  · intro hkind hids hopen ht
    exact issue_after_open lib c wh oa s hkind hoa hs hids hopen ht
  · intro hkind hopen ht
    exact mr_after_open lib c wh oa s hkind hoa hs hopen ht
  · intro c0 evs hempty hrun
    exact runEvents_positiveIDs lib evs c0 c hempty hrun

/-- Witness of C4: in a fresh chat the `open` event of issue 7 is handled, then a
push, then the `close` event of issue 7, which is a reply to the message stored under
`issue_7`. -/
theorem issue_mr_threading_witness :
    openIssue.ObjectKind = "issue" ∧ closeIssue.ObjectKind = "issue" ∧
      webhookHandler htmlLib {} openIssue = some afterOpenIssue ∧
      runEvents htmlLib afterOpenIssue [ownPush] = some afterOpenIssueAndPush ∧
      ∃ r c3 m2, FindMessageByEventID afterOpenIssue ("issue_" ++ Itoa 7) = some r ∧
        afterOpenIssue.Messages = ({} : Context).Messages ++ [r] ∧
        webhookHandler htmlLib afterOpenIssueAndPush closeIssue = some c3 ∧
        c3.Sent = afterOpenIssueAndPush.Sent ++ [m2] ∧
        m2.ReplyToMsgID = r.MsgID ∧ m2.WebPreview = false := by
  have hopen : webhookHandler htmlLib {} openIssue = some afterOpenIssue := by decide
  have hrun : runEvents htmlLib afterOpenIssue [ownPush] = some afterOpenIssueAndPush := by
    decide
  obtain ⟨c1, r, h1, hf, hnew, hlater⟩ :=
    (issue_mr_threading htmlLib {} openIssue
      { ID := 7, Iid := 2, ProjectID := 4, Title := "bug", State := "opened", Action := "open"
        URL := "https://git.x.org/ann/repo/issues/2" }
      { MR := { Open := true, Close := true, Update := true, Merge := true }
        Issues := { Open := true, Close := true, Update := true, Reopen := true }
        CI := { Success := false, Fail := true, Cancel := true } }
      rfl (Or.inr ⟨rfl, rfl⟩)).2.2.1 rfl (fun r hr => absurd hr (by simp)) rfl (by decide)
  have hc1 : c1 = afterOpenIssue := by
    rw [hopen] at h1
    exact (Option.some.inj h1).symm
  subst hc1
  obtain ⟨c3, m2, h3, hsent, hreply, hwp⟩ :=
    hlater [ownPush] afterOpenIssueAndPush closeIssue
      { ID := 7, Iid := 2, ProjectID := 4, Title := "bug", State := "closed", Action := "close"
        URL := "https://git.x.org/ann/repo/issues/2" }
      hrun rfl rfl rfl (by decide) (by decide)
  exact ⟨rfl, rfl, hopen, hrun, r, c3, m2, hf, hnew (by decide), h3, hsent, hreply, hwp⟩

/-! ## The settings keyboard -/

theorem stateToBool_boolToState (b : Bool) : stateToBool (boolToState b) = b := by
  cases b <;> rfl

theorem chatSettings_SaveSettings (c : Context) (cs : ChatSettings) :
    chatSettings (SaveSettings c cs) = cs := rfl

theorem SaveSettings_Settings (c : Context) (cs : ChatSettings) :
    (SaveSettings c cs).Settings = some cs := rfl

/-- C9: for every settings record `s` stored for a chat (the saved record, or the
defaults of a chat that never saved one) and every toggle of every category (mr,
issues, ci): on the keyboard the handler renders when the category is chosen, the
button of the toggle carries the state of its boolean in `s`; pressing it saves a
record in which that boolean is negated and every other boolean is that of `s`, and
leaves the keyboard in the same category; pressing the toggle again on the
re-rendered keyboard saves a record equal to `s`. -/
theorem toggle_round_trip (c : Context) (s : ChatSettings) (t : Toggle)
    (hs : storedSettings c s) :
    ∃ cb1 cb2 s2,
      press (settingsKeyboardPressed c ⟨t.category, 0, "categories"⟩).2 t.data = some cb1 ∧
      cb1.State = boolToState (Toggle.get s t) ∧
      (settingsKeyboardPressed (settingsKeyboardPressed c ⟨t.category, 0, "categories"⟩).1
        cb1).1.Settings = some s2 ∧
      (∀ t', Toggle.get s2 t' = if t' = t then !Toggle.get s t else Toggle.get s t') ∧
      (settingsKeyboardPressed (settingsKeyboardPressed c ⟨t.category, 0, "categories"⟩).1
        cb1).2.State = t.category ∧
      press (settingsKeyboardPressed (settingsKeyboardPressed c ⟨t.category, 0, "categories"⟩).1
        cb1).2 t.data = some cb2 ∧
      (settingsKeyboardPressed (settingsKeyboardPressed (settingsKeyboardPressed c
        ⟨t.category, 0, "categories"⟩).1 cb1).1 cb2).1.Settings = some s := by
  have hs := chatSettings_of_stored c s hs
  refine ⟨⟨t.data, boolToState (Toggle.get s t), t.category⟩,
    ⟨t.data, boolToState (!Toggle.get s t), t.category⟩, Toggle.flip s t, ?_, rfl, ?_, ?_, ?_,
    ?_, ?_⟩
  · cases t <;>
      simp [settingsKeyboardPressed, press, Toggle.category, Toggle.data, Toggle.get, hs]
  · cases t <;>
      simp [settingsKeyboardPressed, Toggle.category, Toggle.data, Toggle.get, Toggle.flip, hs,
        chatSettings_SaveSettings, SaveSettings_Settings, stateToBool_boolToState]
  · intro t'
    cases t <;> cases t' <;> simp [Toggle.get, Toggle.flip]
  · cases t <;>
      simp [settingsKeyboardPressed, Toggle.category, Toggle.data, Toggle.get, hs]
  · cases t <;>
      simp [settingsKeyboardPressed, press, Toggle.category, Toggle.data, Toggle.get, hs,
        chatSettings_SaveSettings, SaveSettings_Settings, stateToBool_boolToState]
  · cases t <;>
      simp [settingsKeyboardPressed, Toggle.category, Toggle.data, Toggle.get, hs,
        chatSettings_SaveSettings, SaveSettings_Settings, stateToBool_boolToState]

/-- Witness of C9: the CI fail toggle of a chat that saved settings with CI fail off
and CI success on; the first press turns CI fail on and keeps CI success on. -/
theorem toggle_round_trip_witness :
    mutedFailChat.Settings = some
        { MR := { Open := true, Close := true, Update := true, Merge := true }
          Issues := { Open := true, Close := true, Update := true, Reopen := true }
          CI := { Success := true, Fail := false, Cancel := true } } ∧
      ∃ cb1 cb2 s2,
        press (settingsKeyboardPressed mutedFailChat ⟨"ci", 0, "categories"⟩).2 "fail" =
          some cb1 ∧
        (settingsKeyboardPressed (settingsKeyboardPressed mutedFailChat
          ⟨"ci", 0, "categories"⟩).1 cb1).1.Settings = some s2 ∧
        s2.CI = { Success := true, Fail := true, Cancel := true } ∧
        press (settingsKeyboardPressed (settingsKeyboardPressed mutedFailChat
          ⟨"ci", 0, "categories"⟩).1 cb1).2 "fail" = some cb2 ∧
        (settingsKeyboardPressed (settingsKeyboardPressed (settingsKeyboardPressed mutedFailChat
          ⟨"ci", 0, "categories"⟩).1 cb1).1 cb2).1.Settings = mutedFailChat.Settings := by
  obtain ⟨cb1, cb2, s2, h1, -, h2, h3, -, h4, h5⟩ :=
    toggle_round_trip mutedFailChat _ Toggle.ciFail (Or.inl rfl)
  refine ⟨rfl, cb1, cb2, s2, h1, h2, ?_, h4, h5⟩
  have hS := h3 Toggle.ciSuccess
  have hF := h3 Toggle.ciFail
  have hC := h3 Toggle.ciCancel
  simp [Toggle.get] at hS hF hC
  cases hci : s2.CI with
  | mk a b d =>
    rw [hci] at hS hF hC
    simp at hS hF hC
    simp [hS, hF, hC]

/-! ## The reply handlers -/

theorem mustBeAuthed_Message (c : Context) : (mustBeAuthed c).2.Message = c.Message := by
  unfold mustBeAuthed
  split
  · rfl
  · split <;> rfl

/-- Whoever replies, `snippetReplied` binds the reply action of the message to
`mrReplied`, with the snippet id in the place of the merge request id. -/
theorem snippetReplied_reply_action (lib : Lib) (c : Context) (baseURL : String)
    (projectID snippetID : Int) :
    (snippetReplied lib c baseURL projectID snippetID).Message.ReplyAction =
      some ⟨.mrReplied, [.str baseURL, .int projectID, .int snippetID]⟩ := by
  unfold snippetReplied
  generalize mustBeAuthed (SetServiceBaseURL lib c baseURL) = r
  obtain ⟨authorized, c1⟩ := r
  rfl

/-- C10 (the code at the failing input): for an authorized user replying `thanks`,
each of the four reply handlers enqueues the comment job of its own resource kind;
`issueReplied`, `mrReplied` and `commitReplied` rebind the reply action to themselves
with the same arguments, whereas `snippetReplied` rebinds it to `mrReplied`. -/
theorem snippet_reply_rebinds_merge_request_handler :
    (mustBeAuthed authedChat).1 = true ∧
    (snippetReplied htmlLib authedChat "https://git.x.org" 4 12).Jobs =
      [⟨.sendSnippetComment,
        [.context, .str "https://git.x.org", .int 4, .int 12, .str "thanks"]⟩] ∧
    (snippetReplied htmlLib authedChat "https://git.x.org" 4 12).Message.ReplyAction =
      some ⟨.mrReplied, [.str "https://git.x.org", .int 4, .int 12]⟩ ∧
    (issueReplied htmlLib authedChat "https://git.x.org" 4 12).Jobs =
      [⟨.sendIssueComment, [.context, .int 4, .int 12, .str "thanks"]⟩] ∧
    (issueReplied htmlLib authedChat "https://git.x.org" 4 12).Message.ReplyAction =
      some ⟨.issueReplied, [.str "https://git.x.org", .int 4, .int 12]⟩ ∧
    (mrReplied htmlLib authedChat "https://git.x.org" 4 12).Jobs =
      [⟨.sendMRComment,
        [.context, .str "https://git.x.org", .int 4, .int 12, .str "thanks"]⟩] ∧
    (mrReplied htmlLib authedChat "https://git.x.org" 4 12).Message.ReplyAction =
      some ⟨.mrReplied, [.str "https://git.x.org", .int 4, .int 12]⟩ ∧
    (commitReplied htmlLib authedChat "https://git.x.org" 4 "0123456789abcdef").Jobs =
      [⟨.sendCommitComment,
        [.context, .int 4, .str "0123456789abcdef", .message "thanks"]⟩] ∧
    (commitReplied htmlLib authedChat "https://git.x.org" 4
        "0123456789abcdef").Message.ReplyAction =
      some ⟨.commitReplied, [.str "https://git.x.org", .int 4, .str "0123456789abcdef"]⟩ := by
  decide

/-! ## The comment jobs -/

/-- The key `sendIssueComment` adds for a created note. -/
theorem sendIssueComment_key (api : NotesApi) (c : Context) (projectID issueID : Int)
    (text : String) (n : Note) (e : Option String)
    (h : api.CreateIssueNote projectID issueID text = (some n, e)) :
    (sendIssueComment api c projectID issueID text).1.Message.EventID =
      c.Message.EventID ++ ["issue_note_" ++ Itoa n.ID] := by
  simp [sendIssueComment, h, UpdateEventsID]

/-- The key `sendMRComment` adds for a created note. -/
theorem sendMRComment_key (api : NotesApi) (c : Context) (projectID mergeRequestID : Int)
    (text : String) (n : Note) (e : Option String)
    (h : api.CreateMergeRequestNote projectID mergeRequestID text = (some n, e)) :
    (sendMRComment api c projectID mergeRequestID text).1.Message.EventID =
      c.Message.EventID ++ [noteUniqueID projectID (Itoa n.ID)] := by
  simp [sendMRComment, h, UpdateEventsID]

/-- The key `sendSnippetComment` adds for a created note. -/
theorem sendSnippetComment_key (api : NotesApi) (c : Context) (projectID snippetID : Int)
    (text : String) (n : Note) (e : Option String)
    (h : api.CreateSnippetNote projectID snippetID text = (some n, e)) :
    (sendSnippetComment api c projectID snippetID text).1.Message.EventID =
      c.Message.EventID ++ [noteUniqueID projectID (Itoa n.ID)] := by
  simp [sendSnippetComment, h, UpdateEventsID]

/-- The key `sendCommitComment` adds for a note created without error. -/
theorem sendCommitComment_key (api : NotesApi) (c : Context) (projectID : Int)
    (commitID : String) (msg : IncomingMessage) (n : Note)
    (h : api.CreateCommitNote projectID commitID msg.Text = (some n, none)) :
    sendCommitComment api c projectID commitID msg =
      some (UpdateEventsID c (noteUniqueID projectID n.CreatedAt), none) := by
  simp [sendCommitComment, h]

/-- C11 (the code at the failing input): when the API returns the created note 31 of
project 4, `sendIssueComment` adds the event key `issue_note_31`, which is not
`noteUniqueID(4, 31) = note_4_31`; `sendMRComment` and `sendSnippetComment` add
`note_4_31`, and `sendCommitComment` adds the key built from the creation time. -/
theorem issue_comment_key_outside_note_namespace :
    (sendIssueComment sampleApi authedChat 4 2 "thanks").1.Message.EventID =
      ["issue_note_31"] ∧
    noteUniqueID 4 (Itoa 31) = "note_4_31" ∧
    (sendMRComment sampleApi authedChat 4 2 "thanks").1.Message.EventID = ["note_4_31"] ∧
    (sendSnippetComment sampleApi authedChat 4 2 "thanks").1.Message.EventID =
      ["note_4_31"] ∧
    (sendCommitComment sampleApi authedChat 4 "0123456789abcdef"
        { Text := "thanks" }).map (fun r => r.1.Message.EventID) =
      some ["note_4_2017-03-01T10:00:00Z"] := by
  decide

/-! ## The dedup key of commit notes -/

/-- The dedup key of the `note` case is chosen by the text of the note, not by the
noteable type. -/
theorem noteKey_eq (oa : attributes) :
    noteKey oa =
      if oa.Note = "Commit" then noteUniqueID oa.ProjectID oa.CreatedAt
      else noteUniqueID oa.ProjectID (Itoa oa.ID) := by
  unfold noteKey
  split <;> rfl

/-- C12 (the code at the failing input): for the comment `nice` with note id 31 on a
commit of project 4, the dedup key the handler looks up is `note_4_31`, not the key
`note_4_<created_at>` that `sendCommitComment` records; the event is therefore not
dropped in a chat that holds that record.  A comment on an issue whose text is
`Commit` is looked up under its creation time instead. -/
theorem commit_note_dedup_key_uses_note_id :
    commitNoteAttributes.NoteableType = "Commit" ∧
    noteKey commitNoteAttributes = "note_4_31" ∧
    noteUniqueID 4 commitNoteAttributes.CreatedAt = "note_4_2017-03-01T10:00:00Z" ∧
    FindMessageByEventID commentedCommitChat
        (noteUniqueID 4 commitNoteAttributes.CreatedAt) =
      some { MsgID := 5, EventID := ["note_4_2017-03-01T10:00:00Z"] } ∧
    (webhookHandler htmlLib commentedCommitChat commitNote).map (fun c => c.Sent.length) =
      some 1 ∧
    noteKey { commitNoteAttributes with NoteableType := "Issue", Note := "Commit" } =
      "note_4_2017-03-01T10:00:00Z" := by
  decide

/-! ## The reply action of open events -/

theorem mrOpenMessage_ReplyAction (lib : Lib) (c : Context) (wh : webhook) (oa : attributes) :
    (mrOpenMessage lib c wh oa).ReplyAction = none :=
  rfl

theorem issueOpenMessage_ReplyAction (lib : Lib) (c : Context) (wh : webhook)
    (oa : attributes) :
    (issueOpenMessage lib c wh oa).ReplyAction =
      some ⟨.issueReplied, [.str c.ServiceBaseURL, .int oa.ProjectID, .int oa.Iid]⟩ :=
  rfl

/-- C13 (the code at the failing input): with the default settings, the message sent
for the `open` event of a merge request has no reply action bound, whereas the message
sent for the `open` event of an issue binds `issueReplied` with the service base URL,
the project id and the iid. -/
theorem merge_request_open_binds_no_reply_action :
    (webhookHandler htmlLib {} openMR).map (fun c => c.Sent.map (fun m => m.ReplyAction)) =
      some [none] ∧
    (webhookHandler htmlLib {} openIssue).map (fun c => c.Sent.map (fun m => m.ReplyAction)) =
      some [some ⟨.issueReplied, [.str "https://git.x.org/ann/repo", .int 4, .int 2]⟩] := by
  decide

/-! ## The application id and secret dialogue -/

/-- On a secret of the wrong length `hostedAppSecretEntered` rebinds itself with the
base URL as its only stored argument. -/
theorem hostedAppSecretEntered_wrong_length (lib : Lib)
    (exchange : String → String → String → Option String) (c : Context)
    (baseURL appID : String) (h : len (TrimSpace c.Message.Text) ≠ 64) :
    hostedAppSecretEntered lib exchange c baseURL appID =
      some (Send (SetServiceBaseURL lib c baseURL)
          (({ Text :=
                "Looks like this *Application Secret* is incorrect. Must be a 64 HEX symbols. Please try again",
              HTML := true, WebPreview := false, ForceReply := true } :
            OutgoingMessage).SetReplyAction .hostedAppSecretEntered [.str baseURL]),
        some ("Application Secret '" ++ TrimSpace c.Message.Text ++ "' is incorrect")) := by
  have h0 : len (TrimSpace (SetServiceBaseURL lib c baseURL).Message.Text) ≠ 64 := h
  simp only [hostedAppSecretEntered, h0, ne_eq, not_false_eq_true, if_true]
  rfl

/-- C14 (the code at the failing input): invoked with the base URL and a 64-character
application id on a secret of 3 characters, `hostedAppSecretEntered` sends the
re-prompt and returns an error, but rebinds itself with the base URL alone: the
application id is no longer part of the stored state.  `hostedAppIDEntered` binds the
same handler with both the base URL and the application id. -/
theorem secret_retry_drops_application_id :
    len (TrimSpace shortSecretChat.Message.Text) = 3 ∧ len sampleAppID = 64 ∧
    (hostedAppSecretEntered htmlLib rejectingExchange shortSecretChat "https://git.x.org"
        sampleAppID).map (fun r => (r.1.Sent.map (fun m => m.ReplyAction), r.2)) =
      some ([some ⟨.hostedAppSecretEntered, [.str "https://git.x.org"]⟩],
        some "Application Secret 'abc' is incorrect") ∧
    (hostedAppIDEntered htmlLib goodIDChat "https://git.x.org").1.Sent.map
        (fun m => m.ReplyAction) =
      [some ⟨.hostedAppSecretEntered, [.str "https://git.x.org", .str sampleAppID]⟩] := by
  decide

/-- C15: for every message text whose trimmed length is not 64, `hostedAppIDEntered`
sends the re-prompt with a forced reply, rebinds the reply action to
`hostedAppIDEntered` with the same base URL, and returns an error naming the rejected
id; for every text whose trimmed length is exactly 64 it sends the request for the
secret and binds `hostedAppSecretEntered` with the base URL and the trimmed text. -/
theorem app_id_length_check (lib : Lib) (c : Context) (baseURL : String) :
    (len (TrimSpace c.Message.Text) ≠ 64 →
      ∃ m, (hostedAppIDEntered lib c baseURL).1.Sent = c.Sent ++ [m] ∧
        m.Text =
          "Looks like this *Application ID* is incorrect. Must be a 64 HEX symbols. Please try again" ∧
        m.ForceReply = true ∧
        m.ReplyAction = some ⟨.hostedAppIDEntered, [.str baseURL]⟩ ∧
        (hostedAppIDEntered lib c baseURL).2 =
          some ("Application ID '" ++ TrimSpace c.Message.Text ++ "' is incorrect")) ∧
    (len (TrimSpace c.Message.Text) = 64 →
      ∃ m, (hostedAppIDEntered lib c baseURL).1.Sent = c.Sent ++ [m] ∧
        m.Text = "Great! Now write me the *Secret* for this application" ∧
        m.ForceReply = true ∧
        m.ReplyAction =
          some ⟨.hostedAppSecretEntered, [.str baseURL, .str (TrimSpace c.Message.Text)]⟩ ∧
        (hostedAppIDEntered lib c baseURL).2 = none) := by
  constructor
  · intro h
    have h0 : len (TrimSpace (SetServiceBaseURL lib c baseURL).Message.Text) ≠ 64 := h
    simp only [hostedAppIDEntered, h0, ne_eq, not_false_eq_true, if_true]
    exact ⟨_, rfl, rfl, rfl, rfl, rfl⟩
  · intro h
    have h0 : ¬ len (TrimSpace (SetServiceBaseURL lib c baseURL).Message.Text) ≠ 64 :=
      fun hn => hn h
    simp only [hostedAppIDEntered, h0, if_false]
    exact ⟨_, rfl, rfl, rfl, rfl, trivial⟩

/-- Witness of C15: an application id of 63 hexadecimal characters is rejected and the
same step is bound again. -/
theorem app_id_length_check_witness :
    len (TrimSpace shortIDChat.Message.Text) = 63 ∧
      ∃ m, (hostedAppIDEntered htmlLib shortIDChat "https://git.x.org").1.Sent =
          shortIDChat.Sent ++ [m] ∧
        m.Text =
          "Looks like this *Application ID* is incorrect. Must be a 64 HEX symbols. Please try again" ∧
        m.ForceReply = true ∧
        m.ReplyAction = some ⟨.hostedAppIDEntered, [.str "https://git.x.org"]⟩ ∧
        (hostedAppIDEntered htmlLib shortIDChat "https://git.x.org").2 =
          some ("Application ID '" ++ TrimSpace shortIDChat.Message.Text ++ "' is incorrect") :=
  ⟨by decide, (app_id_length_check htmlLib shortIDChat "https://git.x.org").1 (by decide)⟩

/-! ## Absent nested objects -/

/-- The `issue` case panics on a payload without object attributes. -/
theorem issue_without_attributes (lib : Lib) (c : Context) (wh : webhook)
    (hkind : wh.ObjectKind = "issue") (h : wh.ObjectAttributes = none) :
    webhookHandler lib c wh = none := by
  rw [webhookHandler_issue lib c wh hkind]
  simp [webhookHandlerIssue, h]

/-- C16 (the code at the failing input): an issue, a merge request and a note event
without `object_attributes`, a comment on a merge request without the merge request
object, and a build without the commit object handled after the push of its commit,
each make the handler dereference the absent object and panic, whatever the library
functions are; it does not return. -/
theorem absent_nested_object_panics :
    bareIssue.ObjectAttributes = none ∧
    webhookHandler htmlLib {} bareIssue = none ∧
    webhookHandler htmlLib {} bareMR = none ∧
    webhookHandler htmlLib {} bareNote = none ∧
    webhookHandler htmlLib {} orphanMRNote = none ∧
    webhookHandler htmlLib afterOwnPush orphanBuild = none ∧
    ¬ ∃ lib c c', webhookHandler lib c bareIssue = some c' := by
  refine ⟨rfl, by decide, by decide, by decide, by decide, by decide, ?_⟩
  rintro ⟨lib, c, c', h⟩
  rw [issue_without_attributes lib c bareIssue rfl rfl] at h
  exact absurd h (by simp)

end Gitlab
